import Mathlib

/-!
Shallow embedding of the Raster CPU software rasterizer
(src/include/renderer/scene.h, src/include/shaders/shader.h,
src/src/renderer/scene.cpp, src/src/renderer/render.cpp).

Modelling conventions:
* C++ `float` values are modelled exactly as rationals (ℚ).  The claims
  settled here do not hinge on IEEE-754 rounding; where the code calls the
  transcendental functions `sqrtf`/`tan`, the embedding takes them as
  explicit function parameters, so every theorem quantifies over them.
* Bytes (`uint8_t`) are modelled as `Nat`; wherever the code converts a
  float to `uint8_t` the conversion is made explicit (`cppFloatToByte`).
* `uint32_t` loop counters and sizes are modelled as `Nat` (no value in
  the rendering pipeline approaches 2^32).
* Nullable pointers become `Option`; dereferencing a null pointer is
  modelled by propagating `none` (the C++ behaviour is a crash/UB).
* `std::map<uint32_t, …>` iterates in ascending key order; it is modelled
  as an association list kept sorted by key on insertion.
-/

namespace Raster

/-- Truncation toward zero of a rational number, which is how C++ converts
a floating point value to an integer type (for in-range values). -/
def ratTrunc (q : ℚ) : Int := if 0 ≤ q then Int.floor q else -Int.floor (-q)

/-- Conversion of a C++ float to `uint8_t`.  Values in [0,256) truncate
toward zero (defined ISO C++ behaviour); out-of-range conversions are
undefined behaviour in ISO C++ and are modelled as what mainstream
targets (x86/ARM) do: truncate to an integer and keep the low byte. -/
def cppFloatToByte (q : ℚ) : Nat := ((ratTrunc q) % 256).toNat

/-- `Image::Format` (scene.h).  The enumerator value is the channel count. -/
inductive Format where
  | GRAYSCALE
  | GRAYSCALE_ALPHA
  | RGB
  | RGBA
deriving DecidableEq, Repr

/-- Numeric value of the format enumerator = number of channels. -/
def Format.toNat : Format → Nat
  | .GRAYSCALE => 1
  | .GRAYSCALE_ALPHA => 2
  | .RGB => 3
  | .RGBA => 4

/-- glm::vec2 over exact rationals. -/
structure Vec2 where
  x : ℚ
  y : ℚ
deriving DecidableEq

/-- glm::vec3 over exact rationals. -/
structure Vec3 where
  x : ℚ
  y : ℚ
  z : ℚ
deriving DecidableEq

/-- glm::vec4 over exact rationals. -/
structure Vec4 where
  x : ℚ
  y : ℚ
  z : ℚ
  w : ℚ
deriving DecidableEq

/-- `Color` (scene.h): four 8-bit channels, stored as `rgba[4]`. -/
structure Color where
  r : Nat
  g : Nat
  b : Nat
  a : Nat
deriving DecidableEq, Repr

/-- The default constructor `Color()` : `rgba{ 0, 0, 0, 255 }`. -/
def Color.init : Color := ⟨0, 0, 0, 255⟩

/-- `Color(const std::uint8_t *p, const Image::Format bpp)` (scene.h).
The member initializer `{0,0,0,255}` applies first, then the constructor
overwrites: GRAYSCALE `memset`s one byte, GRAYSCALE_ALPHA `memset`s three
bytes and sets `rgba[3] = p[1]`, RGB/RGBA copy the first `bpp` bytes. -/
def Color.fromBytes (p : List Nat) (bpp : Format) : Color :=
  match bpp with
  | .GRAYSCALE => ⟨p.getD 0 0, 0, 0, 255⟩
  | .GRAYSCALE_ALPHA => ⟨p.getD 0 0, p.getD 0 0, p.getD 0 0, p.getD 1 0⟩
  | .RGB => ⟨p.getD 0 0, p.getD 1 0, p.getD 2 0, 255⟩
  | .RGBA => ⟨p.getD 0 0, p.getD 1 0, p.getD 2 0, p.getD 3 0⟩

/-- The first `fmt` bytes of the `rgba` buffer, as read by `memcpy`
from `color.buffer()`. -/
def Color.bytes (c : Color) (fmt : Format) : List Nat :=
  [c.r, c.g, c.b, c.a].take fmt.toNat

/-- `Color::operator*(const float intensity)`: the scalar is clamped to
[0,1] by `fmax(0., fmin(intensity, 1.f))`, then every channel is
multiplied (and converted back to a byte by truncation). -/
def Color.mulScalar (c : Color) (intensity : ℚ) : Color :=
  let clamped := max 0 (min intensity 1)
  ⟨cppFloatToByte ((c.r : ℚ) * clamped), cppFloatToByte ((c.g : ℚ) * clamped),
   cppFloatToByte ((c.b : ℚ) * clamped), cppFloatToByte ((c.a : ℚ) * clamped)⟩

/-- `Color::operator*(const glm::vec4 colors)`: per-channel multiply. -/
def Color.mulVec4 (c : Color) (v : Vec4) : Color :=
  ⟨cppFloatToByte ((c.r : ℚ) * v.x), cppFloatToByte ((c.g : ℚ) * v.y),
   cppFloatToByte ((c.b : ℚ) * v.z), cppFloatToByte ((c.a : ℚ) * v.w)⟩

/-- `Color::operator*(const glm::vec3 colors)`: multiplies the three color
channels, leaving alpha unchanged. -/
def Color.mulVec3 (c : Color) (v : Vec3) : Color :=
  ⟨cppFloatToByte ((c.r : ℚ) * v.x), cppFloatToByte ((c.g : ℚ) * v.y),
   cppFloatToByte ((c.b : ℚ) * v.z), c.a⟩

/-- `Color::operator+(const glm::vec4 colors)`:
`res.rgba[i] = rgba[i] + (colors[i] * 255.f)`.  Note: there is no
saturation here; the float result is converted straight back to a byte. -/
def Color.addVec4 (c : Color) (v : Vec4) : Color :=
  ⟨cppFloatToByte ((c.r : ℚ) + v.x * 255), cppFloatToByte ((c.g : ℚ) + v.y * 255),
   cppFloatToByte ((c.b : ℚ) + v.z * 255), cppFloatToByte ((c.a : ℚ) + v.w * 255)⟩

/-- `Color::operator+(Color &c)`: `std::min(255, rgba[i] + buffer[i])`
per channel (saturating integer add). -/
def Color.addColor (c d : Color) : Color :=
  ⟨min 255 (c.r + d.r), min 255 (c.g + d.g), min 255 (c.b + d.b), min 255 (c.a + d.a)⟩

/-- `Color::opeque()` (sic): sets A = 255. -/
def Color.opeque (c : Color) : Color := { c with a := 255 }

/-- `Color::transparent()`: sets A = 0. -/
def Color.transparent (c : Color) : Color := { c with a := 0 }

/-- `Color::Af()` : `A() / 255.f`. -/
def Color.Af (c : Color) : ℚ := (c.a : ℚ) / 255

/-- `Color::toNormal()`. -/
def Color.toNormal (c : Color) : Vec3 :=
  ⟨(c.r : ℚ) / 255 * 2 - 1, (c.g : ℚ) / 255 * 2 - 1, (c.b : ℚ) / 255 * 2 - 1⟩

/-- `memcpy(data + off, src.data(), src.size())`, byte by byte.  Writes
outside the destination are no-ops (`List.set` out of range), matching the
fact that every call site is bounds-guarded. -/
def writeBytes (data : List Nat) (off : Nat) : List Nat → List Nat
  | [] => data
  | b :: rest => writeBytes (data.set off b) (off + 1) rest

/-- Read `n` bytes starting at `off` (missing bytes read as 0). -/
def readBytes (data : List Nat) (off n : Nat) : List Nat :=
  (List.range n).map (fun i => data.getD (off + i) 0)

/-- `Image` (scene.h): width, height, format and the flat byte buffer. -/
structure Image where
  width : Nat
  height : Nat
  format : Format
  data : List Nat
deriving DecidableEq, Repr

/-- The `Image(width, height, format)` constructor: zero-filled buffer of
`width * height * format` bytes. -/
def Image.mk' (w h : Nat) (f : Format) : Image :=
  ⟨w, h, f, List.replicate (w * h * f.toNat) 0⟩

/-- `Image::clear()`: `data = std::vector<uint8_t>(w*h*format, 0)`. -/
def Image.clear (img : Image) : Image :=
  { img with data := List.replicate (img.width * img.height * img.format.toNat) 0 }

/-- `Image::reset(w, h, f)`: store the new dimensions, then `clear()`. -/
def Image.reset (_img : Image) (w h : Nat) (f : Format) : Image :=
  Image.clear ⟨w, h, f, []⟩

/-- `Image::set(x, y, color)` (scene.cpp): no-op when the buffer is empty
or the pixel is out of bounds (the `x < 0 || y < 0` tests are vacuous for
`uint32_t`); otherwise copies `format` bytes of the color into the pixel. -/
def Image.set (img : Image) (x y : Nat) (c : Color) : Image :=
  if img.data.length = 0 ∨ x ≥ img.width ∨ y ≥ img.height then img
  else { img with
         data := writeBytes img.data ((x + y * img.width) * img.format.toNat)
                  (c.bytes img.format) }

/-- `Image::get(x, y)` (scene.cpp): returns `Color()` when the buffer is
empty or the pixel is out of bounds; otherwise reads `format` bytes. -/
def Image.get (img : Image) (x y : Nat) : Color :=
  if img.data.length = 0 ∨ x ≥ img.width ∨ y ≥ img.height then Color.init
  else Color.fromBytes
        (readBytes img.data ((x + y * img.width) * img.format.toNat) img.format.toNat)
        img.format

/-- One iteration of the `Image::fill` loop body at pixel `(x, y)`:
skip when `format == RGBA && dst[3] != 0`, else `memcpy` the color. -/
def fillPixel (fmt : Format) (cb : List Nat) (w : Nat) (data : List Nat)
    (xy : Nat × Nat) : List Nat :=
  let off := (xy.1 + xy.2 * w) * fmt.toNat
  if fmt = Format.RGBA ∧ data.getD (off + 3) 0 ≠ 0 then data
  else writeBytes data off cb

/-- The pixel traversal order of `Image::fill`: `x` outer, `y` inner. -/
def pixelList (w h : Nat) : List (Nat × Nat) :=
  (List.range w).flatMap (fun x => (List.range h).map (fun y => (x, y)))

/-- `Image::fill(Color &color)` (scene.cpp). -/
def Image.fill (img : Image) (c : Color) : Image :=
  { img with
    data := (pixelList img.width img.height).foldl
             (fillPixel img.format (c.bytes img.format) img.width) img.data }

/-- `Image::copy(Image &src)` (scene.h): asserts equal dimensions and
format (modelled as the debug-build abort, i.e. `none`), then `memcpy`s
`width*height*format` bytes. -/
def Image.copy (dst src : Image) : Option Image :=
  if src.width = dst.width ∧ src.height = dst.height ∧ src.format = dst.format then
    some { dst with
           data := writeBytes dst.data 0
                    (src.data.take (dst.width * dst.height * dst.format.toNat)) }
  else none

/-- `Image::hasAlpha()`. -/
def Image.hasAlpha (img : Image) : Bool :=
  img.format = Format.RGBA ∨ img.format = Format.GRAYSCALE_ALPHA


/-! ## Linear algebra (glm), over exact rationals

glm matrices are column-major: `m[i]` is column `i`.  `v * m` is the
row-vector product (component `i` is `dot v m[i]`); `m * v` is the
column combination `Σ m[i] * v[i]`.
-/

def Vec3.add (u v : Vec3) : Vec3 := ⟨u.x + v.x, u.y + v.y, u.z + v.z⟩

def Vec3.sub (u v : Vec3) : Vec3 := ⟨u.x - v.x, u.y - v.y, u.z - v.z⟩

def Vec3.smul (q : ℚ) (v : Vec3) : Vec3 := ⟨q * v.x, q * v.y, q * v.z⟩

def Vec3.neg (v : Vec3) : Vec3 := ⟨-v.x, -v.y, -v.z⟩

def Vec3.dot (u v : Vec3) : ℚ := u.x * v.x + u.y * v.y + u.z * v.z

def Vec3.cross (u v : Vec3) : Vec3 :=
  ⟨u.y * v.z - u.z * v.y, u.z * v.x - u.x * v.z, u.x * v.y - u.y * v.x⟩

def Vec4.add (u v : Vec4) : Vec4 := ⟨u.x + v.x, u.y + v.y, u.z + v.z, u.w + v.w⟩

def Vec4.smul (q : ℚ) (v : Vec4) : Vec4 := ⟨q * v.x, q * v.y, q * v.z, q * v.w⟩

def Vec4.dot (u v : Vec4) : ℚ := u.x * v.x + u.y * v.y + u.z * v.z + u.w * v.w

/-- `glm::vec3(v4)`: drop the w component. -/
def Vec4.xyz (v : Vec4) : Vec3 := ⟨v.x, v.y, v.z⟩

def Vec2.add (u v : Vec2) : Vec2 := ⟨u.x + v.x, u.y + v.y⟩

def Vec2.smul (q : ℚ) (v : Vec2) : Vec2 := ⟨q * v.x, q * v.y⟩

/-- glm::mat3: three columns. -/
structure Mat3 where
  c0 : Vec3
  c1 : Vec3
  c2 : Vec3
deriving DecidableEq

/-- glm::mat4: four columns. -/
structure Mat4 where
  c0 : Vec4
  c1 : Vec4
  c2 : Vec4
  c3 : Vec4
deriving DecidableEq

/-- glm::mat3x2: three columns of vec2 (used for the UV varying). -/
structure Mat3x2 where
  c0 : Vec2
  c1 : Vec2
  c2 : Vec2
deriving DecidableEq

def Mat3.id : Mat3 := ⟨⟨1,0,0⟩, ⟨0,1,0⟩, ⟨0,0,1⟩⟩

def Mat4.id : Mat4 := ⟨⟨1,0,0,0⟩, ⟨0,1,0,0⟩, ⟨0,0,1,0⟩, ⟨0,0,0,1⟩⟩

/-- Write column `i ∈ {0,1,2}` of a mat3 (the varying assignment
`m[ivert] = v`; `ivert` is always 0, 1 or 2). -/
def Mat3.setCol (m : Mat3) (i : Nat) (v : Vec3) : Mat3 :=
  if i = 0 then { m with c0 := v }
  else if i = 1 then { m with c1 := v }
  else if i = 2 then { m with c2 := v }
  else m

def Mat3x2.setCol (m : Mat3x2) (i : Nat) (v : Vec2) : Mat3x2 :=
  if i = 0 then { m with c0 := v }
  else if i = 1 then { m with c1 := v }
  else if i = 2 then { m with c2 := v }
  else m

/-- `m * v` for mat3 (column combination). -/
def Mat3.mulVec (m : Mat3) (v : Vec3) : Vec3 :=
  (Vec3.smul v.x m.c0).add ((Vec3.smul v.y m.c1).add (Vec3.smul v.z m.c2))

/-- `v * m` for mat3 (row-vector product, used by `normal * skinMat3`). -/
def Vec3.mulMat (v : Vec3) (m : Mat3) : Vec3 :=
  ⟨v.dot m.c0, v.dot m.c1, v.dot m.c2⟩

/-- `m * v` for mat4. -/
def Mat4.mulVec (m : Mat4) (v : Vec4) : Vec4 :=
  (Vec4.smul v.x m.c0).add ((Vec4.smul v.y m.c1).add
    ((Vec4.smul v.z m.c2).add (Vec4.smul v.w m.c3)))

/-- `a * b` for mat4. -/
def Mat4.mul (a b : Mat4) : Mat4 :=
  ⟨a.mulVec b.c0, a.mulVec b.c1, a.mulVec b.c2, a.mulVec b.c3⟩

def Mat4.addM (a b : Mat4) : Mat4 :=
  ⟨a.c0.add b.c0, a.c1.add b.c1, a.c2.add b.c2, a.c3.add b.c3⟩

def Mat4.smulM (q : ℚ) (m : Mat4) : Mat4 :=
  ⟨Vec4.smul q m.c0, Vec4.smul q m.c1, Vec4.smul q m.c2, Vec4.smul q m.c3⟩

/-- `glm::mat3(m4)`: upper-left 3×3 (first three columns, w dropped). -/
def Mat4.toMat3 (m : Mat4) : Mat3 := ⟨m.c0.xyz, m.c1.xyz, m.c2.xyz⟩

/-- `m * vec4(bar, 1)` where `m` is a glm::mat4x3 whose fourth column was
never written and holds zero (value-initialized; the varyings `vColor` and
`vTangent` only ever assign columns 0–2), so the product reduces to the
combination of the first three columns. -/
def Mat3.mulVec4Bar (m : Mat3) (v : Vec4) : Vec3 :=
  (Vec3.smul v.x m.c0).add ((Vec3.smul v.y m.c1).add (Vec3.smul v.z m.c2))

/-- `m * bar` for the mat3x2 UV varying. -/
def Mat3x2.mulVec (m : Mat3x2) (v : Vec3) : Vec2 :=
  (Vec2.smul v.x m.c0).add ((Vec2.smul v.y m.c1).add (Vec2.smul v.z m.c2))

/-- glm::quat (w, x, y, z). -/
structure Quat where
  w : ℚ
  x : ℚ
  y : ℚ
  z : ℚ
deriving DecidableEq

/-- `glm::toMat4(q)` (via glm's `mat3_cast`, no normalization). -/
def Quat.toMat4 (q : Quat) : Mat4 :=
  ⟨⟨1 - 2*(q.y*q.y + q.z*q.z), 2*(q.x*q.y + q.w*q.z), 2*(q.x*q.z - q.w*q.y), 0⟩,
   ⟨2*(q.x*q.y - q.w*q.z), 1 - 2*(q.x*q.x + q.z*q.z), 2*(q.y*q.z + q.w*q.x), 0⟩,
   ⟨2*(q.x*q.z + q.w*q.y), 2*(q.y*q.z - q.w*q.x), 1 - 2*(q.x*q.x + q.y*q.y), 0⟩,
   ⟨0, 0, 0, 1⟩⟩

/-- `glm::translate(v)`. -/
def glmTranslate (v : Vec3) : Mat4 :=
  ⟨⟨1,0,0,0⟩, ⟨0,1,0,0⟩, ⟨0,0,1,0⟩, ⟨v.x, v.y, v.z, 1⟩⟩

/-- `glm::scale(v)`. -/
def glmScale (v : Vec3) : Mat4 :=
  ⟨⟨v.x,0,0,0⟩, ⟨0,v.y,0,0⟩, ⟨0,0,v.z,0⟩, ⟨0,0,0,1⟩⟩

/-- `glm::project(obj, model, proj, viewport)` (right-handed, -1..1 clip
space): transform, perspective divide, map to [0,1], then to viewport.
Division by a zero w is modelled as 0 (float would give ±inf; no claim
depends on that degenerate case). -/
def glmProject (obj : Vec3) (model proj : Mat4) (viewport : Vec4) : Vec3 :=
  let tmp := model.mulVec ⟨obj.x, obj.y, obj.z, 1⟩
  let tmp := proj.mulVec tmp
  let tmp := Vec4.smul (1 / tmp.w) tmp
  let tmp : Vec4 := ⟨tmp.x * (1/2) + 1/2, tmp.y * (1/2) + 1/2, tmp.z * (1/2) + 1/2, tmp.w * (1/2) + 1/2⟩
  ⟨tmp.x * viewport.z + viewport.x, tmp.y * viewport.w + viewport.y, tmp.z⟩

/-- `glm::repeat(x)` = fract. -/
def glmRepeat1 (x : ℚ) : ℚ := x - Int.floor x

def glmRepeat (uv : Vec2) : Vec2 := ⟨glmRepeat1 uv.x, glmRepeat1 uv.y⟩

/-- `glm::mirrorRepeat(x)` (glm wrap.inl). -/
def glmMirrorRepeat1 (x : ℚ) : ℚ :=
  let a : ℚ := |x|
  let fl : ℚ := Int.floor a
  let odd : ℚ := Int.emod (Int.floor a) 2
  let rest := a - fl
  let mirror := odd + rest
  if mirror ≥ 1 then 1 - rest else rest

def glmMirrorRepeat (uv : Vec2) : Vec2 := ⟨glmMirrorRepeat1 uv.x, glmMirrorRepeat1 uv.y⟩

/-- `glm::clamp(v, lo, hi)` componentwise. -/
def glmClamp2 (v lo hi : Vec2) : Vec2 :=
  ⟨min (max v.x lo.x) hi.x, min (max v.y lo.y) hi.y⟩

/-- The transcendental float functions used by the pipeline, taken as
parameters of the embedding (their values never decide a claim):
`sqrtq` models `sqrtf`, and `cotHalfFov` models
`cos(radians(fov)/2) / sin(radians(fov)/2)` in `glm::perspectiveFov`. -/
structure RealFns where
  sqrtq : ℚ → ℚ
  cotHalfFov : ℚ → ℚ

/-- `glm::normalize(v)` = `v * inversesqrt(dot(v, v))`. -/
def normalize3 (rf : RealFns) (v : Vec3) : Vec3 :=
  Vec3.smul (1 / rf.sqrtq (v.dot v)) v

/-- `glm::normalize(v4)`. -/
def normalize4 (rf : RealFns) (v : Vec4) : Vec4 :=
  Vec4.smul (1 / rf.sqrtq (v.x*v.x + v.y*v.y + v.z*v.z + v.w*v.w)) v

/-! ## Scene data model (scene.h) -/

/-- `std::numeric_limits<float>::min()`: the smallest positive normalized
float, 2⁻¹²⁶ — note, not the most negative finite float. -/
def floatMin : ℚ := 1 / 2 ^ 126

/-- `std::numeric_limits<float>::lowest()`: the minimum finite float,
−(2 − 2⁻²³)·2¹²⁷. -/
def floatLowest : ℚ := -((2 - 1 / 2 ^ 23) * 2 ^ 127)

/-- Texture wrap modes (scene.h `WrapMode`). -/
inductive WrapMode where
  | CLAMP_TO_EDGE
  | MIRRORED_REPEAT
  | REPEAT
deriving DecidableEq, Repr

/-- `Texture` (scene.h): nullable image reference plus per-axis wrap. -/
structure Texture where
  image : Option Image
  wrapS : WrapMode
  wrapT : WrapMode
deriving DecidableEq

/-- `AlphaMode` (scene.h). -/
inductive AlphaMode where
  | Opaque
  | Blend
  | Mask
deriving DecidableEq, Repr

/-- The VRM0 per-material extension block referenced as `material->vrm0`.
Its struct declaration ships in a generated header outside src/;
the fields are modelled from the spec (§3 Material: "outline
width/mode/color/lighting-mix/width-texture and VRM render-queue key")
and from their uses in loader.cpp, render.cpp and shader.h. -/
structure VRM0Material where
  renderQueue : Nat
  outlineWidth : ℚ
  outlineWidthMode : Nat
  outlineLightingMix : ℚ
  outlineColor : Color
  outlineWidthTexture : Option Image
  hasOutlineWidth : Bool
  hasOutlineLightingMix : Bool
  hasOutlineColor : Bool
  hasOutlineWidthTexture : Bool
deriving DecidableEq

/-- `Material` (scene.h), plus the `vrm0` extension pointer used by
render.cpp and shader.h. -/
structure Material where
  baseColorFactor : Vec4
  baseColorFactor_sRGB : Vec4
  emissiveFactor : Vec3
  baseColorTexture : Option Texture
  normalTexture : Option Texture
  emissiveTexture : Option Texture
  alphaMode : AlphaMode
  alphaCutOff : ℚ
  specularFactor : ℚ
  metallicFactor : ℚ
  roughnessFactor : ℚ
  doubleSided : Bool
  unlit : Bool
  vrm0 : Option VRM0Material
deriving DecidableEq

/-- `Target` (scene.h): morph-target displacement arrays. -/
structure Target where
  name : String
  vertices : List Vec3
  normals : List Vec3
  tangents : List Vec4
deriving DecidableEq

def Target.hasNormal (t : Target) : Bool := t.normals.length > 0

def Target.hasTangent (t : Target) : Bool := t.tangents.length > 0

/-- `Primitive` (scene.h): parallel vertex-attribute arrays keyed by a
shared triangle-list index buffer, plus morph targets and cached bounds. -/
structure Primitive where
  material : Option Material
  vertices : List Vec3
  normals : List Vec3
  tangents : List Vec4
  uvs : List Vec2
  joints : List Vec4
  weights : List Vec4
  colors : List Vec4
  indices : List Nat
  targets : List Target
  center : Vec3
  bbmin : Vec3
  bbmax : Vec3
deriving DecidableEq

/-- `Primitive::vert(iface, ivert)` = `vertices[indices[iface*3+ivert]]`.
Out-of-range accesses are UB in C++ (the loader guarantees they do not
occur); they are modelled as zero defaults. -/
def Primitive.vert (p : Primitive) (iface ivert : Nat) : Vec3 :=
  p.vertices.getD (p.indices.getD (iface * 3 + ivert) 0) ⟨0, 0, 0⟩

def Primitive.uv (p : Primitive) (iface ivert : Nat) : Vec2 :=
  p.uvs.getD (p.indices.getD (iface * 3 + ivert) 0) ⟨0, 0⟩

def Primitive.normal (p : Primitive) (iface ivert : Nat) : Vec3 :=
  p.normals.getD (p.indices.getD (iface * 3 + ivert) 0) ⟨0, 0, 0⟩

def Primitive.tangent (p : Primitive) (iface ivert : Nat) : Vec4 :=
  p.tangents.getD (p.indices.getD (iface * 3 + ivert) 0) ⟨0, 0, 0, 0⟩

def Primitive.color (p : Primitive) (iface ivert : Nat) : Vec4 :=
  p.colors.getD (p.indices.getD (iface * 3 + ivert) 0) ⟨0, 0, 0, 0⟩

def Primitive.joint (p : Primitive) (iface ivert : Nat) : Vec4 :=
  p.joints.getD (p.indices.getD (iface * 3 + ivert) 0) ⟨0, 0, 0, 0⟩

def Primitive.weight (p : Primitive) (iface ivert : Nat) : Vec4 :=
  p.weights.getD (p.indices.getD (iface * 3 + ivert) 0) ⟨0, 0, 0, 0⟩

/-- `Primitive::vertAtTarget`. -/
def Primitive.vertAtTarget (p : Primitive) (iface ivert target : Nat) : Vec3 :=
  (p.targets.getD target ⟨"", [], [], []⟩).vertices.getD
    (p.indices.getD (iface * 3 + ivert) 0) ⟨0, 0, 0⟩

/-- `Primitive::normalAtTarget`: zero vector when the target has no
normal displacements. -/
def Primitive.normalAtTarget (p : Primitive) (iface ivert target : Nat) : Vec3 :=
  let t := p.targets.getD target ⟨"", [], [], []⟩
  if t.hasNormal then t.normals.getD (p.indices.getD (iface * 3 + ivert) 0) ⟨0, 0, 0⟩
  else ⟨0, 0, 0⟩

/-- `Primitive::tangentAtTarget`. -/
def Primitive.tangentAtTarget (p : Primitive) (iface ivert target : Nat) : Vec4 :=
  let t := p.targets.getD target ⟨"", [], [], []⟩
  if t.hasTangent then t.tangents.getD (p.indices.getD (iface * 3 + ivert) 0) ⟨0, 0, 0, 0⟩
  else ⟨0, 0, 0, 0⟩

def Primitive.numTargets (p : Primitive) : Nat := p.targets.length

/-- `Primitive::numFaces()` = `indices.size() / 3`. -/
def Primitive.numFaces (p : Primitive) : Nat := p.indices.length / 3

def Primitive.hasNormal (p : Primitive) : Bool := p.normals.length > 0

def Primitive.hasUV (p : Primitive) : Bool := p.uvs.length > 0

def Primitive.hasColor (p : Primitive) : Bool := p.colors.length > 0

def Primitive.hasTangent (p : Primitive) : Bool := p.tangents.length > 0

/-- `Primitive::hasJoints()` = joints and weights both non-empty. -/
def Primitive.hasJoints (p : Primitive) : Bool :=
  p.joints.length > 0 ∧ p.weights.length > 0

/-- `Morph` (scene.h): name plus current weight. -/
structure Morph where
  name : String
  weight : ℚ
deriving DecidableEq

/-- `Mesh` (scene.h). -/
structure Mesh where
  name : String
  primitives : List Primitive
  morphs : List Morph
  center : Vec3
  bbmin : Vec3
  bbmax : Vec3
deriving DecidableEq

/-- `Skin` (scene.h).  The `joints` node-pointer list is only used by the
loader's transform updater and is omitted here; the render path reads
`jointMatrices` only. -/
structure Skin where
  name : String
  inverseBindMatrices : List Mat4
  jointMatrices : List Mat4
deriving DecidableEq

/-- `Node` (scene.h).  The `parent` back-pointer is only used by the
loader and is not representable in a purely functional tree; the render
path never reads it. -/
inductive Node where
  | mk (name : String) (mesh : Option Mesh) (skin : Option Skin)
       (children : List Node) (matrix : Mat4) (visible : Bool) (bindMatrix : Mat4)

def Node.name : Node → String
  | .mk n _ _ _ _ _ _ => n

def Node.mesh : Node → Option Mesh
  | .mk _ m _ _ _ _ _ => m

def Node.skin : Node → Option Skin
  | .mk _ _ s _ _ _ _ => s

def Node.children : Node → List Node
  | .mk _ _ _ c _ _ _ => c

def Node.bindMatrix : Node → Mat4
  | .mk _ _ _ _ _ _ b => b

/-- `Model` (scene.h): scene-level model transform. -/
structure Model where
  translation : Vec3
  rotation : Quat
  scale : Vec3
deriving DecidableEq

def Model.init : Model := ⟨⟨0, 0, 0⟩, ⟨1, 0, 0, 0⟩, ⟨1, 1, 1⟩⟩

inductive Projection where
  | Perspective
  | Orthographic
deriving DecidableEq, Repr

/-- `Camera` (scene.h). -/
structure Camera where
  fov : ℚ
  znear : ℚ
  zfar : ℚ
  translation : Vec3
  rotation : Quat
  scale : Vec3
  mode : Projection
deriving DecidableEq

/-- The default member initializers of `Camera`.  Note the quaternion
initializer `{ 0.f, 0.f, 1.f, 0.f }` fills (w, x, y, z). -/
def Camera.init : Camera :=
  ⟨30, 1/10, 100, ⟨0, 1, -2⟩, ⟨0, 0, 1, 0⟩, ⟨1, 1, 1⟩, .Perspective⟩

/-- `Light` (scene.h). -/
structure Light where
  color : Color
  position : Vec3
deriving DecidableEq

def Light.init : Light := ⟨⟨255, 255, 255, 255⟩, ⟨0, 3/2, 1⟩⟩

/-- `RenderOptions` (scene.h) with its default member initializers. -/
structure RenderOptions where
  silent : Bool := false
  verbose : Bool := false
  ssaa : Bool := false
  outline : Bool := false
  vignette : Bool := false
  input : String := ""
  width : Nat := 1024
  height : Nat := 1024
  ssaaKernelSize : Nat := 2
  format : Format := .RGBA
  background : Color := ⟨255, 255, 255, 255⟩
  camera : Camera := Camera.init
  model : Model := Model.init
deriving DecidableEq

/-- `VRM0Properties` (scene.h, scene-level). -/
structure VRM0Properties where
  outlineWidth : ℚ := 0
  outlineLightingMix : ℚ := 1
  outlineColor : Color := ⟨0, 0, 0, 255⟩
  outlineWidthTexture : Option Image := none
  hasOutlineWidth : Bool := false
  hasOutlineLightingMix : Bool := false
  hasOutlineColor : Bool := false
  hasOutlineWidthTexture : Bool := false
deriving DecidableEq

/-- `Scene` (scene.h).  The arena vectors (`skins`, `images`, …) own the
storage in C++; references inside nodes are modelled by value. -/
structure Scene where
  center : Vec3 := ⟨0, 0, 0⟩
  bbmin : Vec3 := ⟨0, 0, 0⟩
  bbmax : Vec3 := ⟨0, 0, 0⟩
  light : Option Light := none
  children : List Node := []
  skins : List Skin := []
  images : List Image := []
  textures : List Texture := []
  materials : List Material := []
  meshes : List Mesh := []
  lights : List Light := []
  vrm0 : VRM0Properties := {}
  options : RenderOptions := {}

/-! ## Shader interface and the two stock shaders (shader.h) -/

/-- `ShaderContext` (shader.h). -/
structure ShaderContext where
  model : Mat4
  view : Mat4
  viewport : Mat4
  projection : Mat4
  camera : Camera
  light : Option Light
  bgColor : Color
  maxShadingFactor : ℚ

/-- Float-to-`uint32_t` conversion at call sites such as
`texture->get(UV.x * width, …)` (negative values are UB in C++; modelled
as 0). -/
def toU32 (q : ℚ) : Nat := (ratTrunc q).toNat

/-- `Shader::skinning` (shader.h): weighted sum of the four indexed joint
matrices when the primitive has joints and `jointMatrices` is set,
otherwise `*bindMatrix`.  `bindMatrix` starts out null (`none`) and is a
crash if dereferenced before `draw` assigns it. -/
def skinning (prim : Primitive) (jointMatrices : Option (List Mat4))
    (bindMatrix : Option Mat4) (iface ivert : Nat) : Option Mat4 :=
  match jointMatrices with
  | some jms =>
    if prim.hasJoints then
      let idx := prim.joint iface ivert
      let wts := prim.weight iface ivert
      some ((Mat4.smulM wts.x (jms.getD (toU32 idx.x) Mat4.id)).addM
            ((Mat4.smulM wts.y (jms.getD (toU32 idx.y) Mat4.id)).addM
             ((Mat4.smulM wts.z (jms.getD (toU32 idx.z) Mat4.id)).addM
              (Mat4.smulM wts.w (jms.getD (toU32 idx.w) Mat4.id)))))
    else bindMatrix
  | none => bindMatrix

/-- `Shader::morphVert` (shader.h): skipped silently when the morph list
is absent or shorter than the target list; otherwise accumulates
`vert += target_i.vert * morphs[i].weight`. -/
def morphVert (prim : Primitive) (morphs : Option (List Morph))
    (iface ivert : Nat) (vert : Vec3) : Vec3 :=
  match morphs with
  | none => vert
  | some ms =>
    if prim.numTargets > ms.length then vert
    else (List.range prim.numTargets).foldl
      (fun v i => v.add (Vec3.smul (ms.getD i ⟨"", 0⟩).weight (prim.vertAtTarget iface ivert i)))
      vert

/-- `Shader::morphNormal` (shader.h). -/
def morphNormal (prim : Primitive) (morphs : Option (List Morph))
    (iface ivert : Nat) (normal : Vec3) : Vec3 :=
  match morphs with
  | none => normal
  | some ms =>
    if prim.numTargets > ms.length then normal
    else (List.range prim.numTargets).foldl
      (fun v i => v.add (Vec3.smul (ms.getD i ⟨"", 0⟩).weight (prim.normalAtTarget iface ivert i)))
      normal

/-- `Shader::morphTangent` (shader.h). -/
def morphTangent (prim : Primitive) (morphs : Option (List Morph))
    (iface ivert : Nat) (tangent : Vec4) : Vec4 :=
  match morphs with
  | none => tangent
  | some ms =>
    if prim.numTargets > ms.length then tangent
    else (List.range prim.numTargets).foldl
      (fun v i => v.add (Vec4.smul (ms.getD i ⟨"", 0⟩).weight (prim.tangentAtTarget iface ivert i)))
      tangent

/-- The per-triangle varying matrices owned by a `DefaultShader`
instance.  `vColor` and `vTangent` are glm::mat4x3 in the source; their
fourth column is never assigned and stays zero, so only the three
written columns are carried (see `Mat3.mulVec4Bar`). -/
structure DSVary where
  vColor : Mat3
  vPosition : Mat3
  vNormal : Mat3
  vTangent : Mat3
  vUV : Mat3x2
deriving DecidableEq

/-- `DefaultShader::vertex` (shader.h): morphed position, skinning,
projection to screen space, and the varying-column side effects.
`normal * skinMat3` and `tangent * skinMat3` are glm row-vector
products (for the vec4 tangent, C++ converts to vec3 first). -/
def DefaultShader.vertex (ctx : ShaderContext) (prim : Primitive)
    (jointMatrices : Option (List Mat4)) (bindMatrix : Option Mat4)
    (morphs : Option (List Morph)) (fbW fbH : Nat) (iface ivert : Nat)
    (vy : DSVary) : Option (Vec4 × DSVary) :=
  let vert := morphVert prim morphs iface ivert (prim.vert iface ivert)
  match skinning prim jointMatrices bindMatrix iface ivert with
  | none => none
  | some sk =>
    let skinMat4 := ctx.model.mul sk
    let skinMat3 := skinMat4.toMat3
    let glPos := glmProject vert (ctx.view.mul skinMat4) ctx.projection
      ⟨0, 0, (fbW : ℚ), (fbH : ℚ)⟩
    let nCol := (morphNormal prim morphs iface ivert (prim.normal iface ivert)).mulMat skinMat3
    let tCol := ((morphTangent prim morphs iface ivert (prim.tangent iface ivert)).xyz).mulMat skinMat3
    let vy := if prim.hasNormal then { vy with vNormal := vy.vNormal.setCol ivert nCol } else vy
    let vy := if prim.hasTangent then { vy with vTangent := vy.vTangent.setCol ivert tCol } else vy
    let vy := if prim.hasColor then { vy with vColor := vy.vColor.setCol ivert (prim.color iface ivert).xyz } else vy
    let vy := if prim.hasUV then { vy with vUV := vy.vUV.setCol ivert (prim.uv iface ivert) } else vy
    let vy := { vy with vPosition := vy.vPosition.setCol ivert (vert.mulMat skinMat3) }
    some (⟨glPos.x, glPos.y, glPos.z, 1⟩, vy)

/-- `DefaultShader::clampToEdge` (shader.h): the half-texel inset is
always computed from `material->baseColorTexture->image` — regardless of
which texture is being wrapped.  Both pointers are dereferenced without
a null check (`none` = crash). -/
def DefaultShader.clampToEdge (material : Material) (uv : Vec2) : Option Vec2 :=
  match material.baseColorTexture with
  | none => none
  | some t =>
    match t.image with
    | none => none
    | some img =>
      let clampX : ℚ := 1 / (2 * (img.width : ℚ))
      let clampY : ℚ := 1 / (2 * (img.height : ℚ))
      some (glmClamp2 uv ⟨clampX, clampY⟩ ⟨1 - clampX, 1 - clampY⟩)

/-- `DefaultShader::wrap` (shader.h): identical-axis fast path, then the
per-axis processing. -/
def DefaultShader.wrap (material : Material) (uv : Vec2) (texture : Texture) :
    Option Vec2 :=
  if texture.wrapS = texture.wrapT then
    if texture.wrapS = WrapMode.CLAMP_TO_EDGE then DefaultShader.clampToEdge material uv
    else if texture.wrapS = WrapMode.MIRRORED_REPEAT then some (glmMirrorRepeat uv)
    else some (glmRepeat uv)
  else do
    let rx ← match texture.wrapS with
      | .CLAMP_TO_EDGE => (DefaultShader.clampToEdge material uv).map Vec2.x
      | .MIRRORED_REPEAT => some (glmMirrorRepeat uv).x
      | .REPEAT => some (glmRepeat uv).x
    let ry ← match texture.wrapT with
      | .CLAMP_TO_EDGE => (DefaultShader.clampToEdge material uv).map Vec2.y
      | .MIRRORED_REPEAT => some (glmMirrorRepeat uv).y
      | .REPEAT => some (glmRepeat uv).y
    pure (⟨rx, ry⟩ : Vec2)

/-- The emissive step of `DefaultShader::fragment`: sample the emissive
texture at the wrapped UV, zero its alpha, scale by `emissiveFactor`,
add onto the running color. -/
def fragEmissive (material : Material) (UV : Vec2) (color : Color) : Option Color :=
  match material.emissiveTexture with
  | some tex =>
    match tex.image with
    | some timg => do
      let wuv ← DefaultShader.wrap material UV tex
      let ec := timg.get (toU32 (wuv.x * (timg.width : ℚ))) (toU32 (wuv.y * (timg.height : ℚ)))
      let ec := ec.transparent
      pure (Color.addColor (ec.mulVec3 material.emissiveFactor) color)
    | none => some color
  | none => some color

/-- The base-color step of `DefaultShader::fragment`.  Returns
`(discard, color)`; `none` models a crash inside `wrap`. -/
def fragBaseColor (material : Material) (UV : Vec2) (framebuffer : Image)
    (p : Vec3) (color : Color) : Option (Bool × Color) :=
  match material.baseColorTexture with
  | some tex =>
    match tex.image with
    | some timg => do
      let wuv ← DefaultShader.wrap material UV tex
      let diffuse := timg.get (toU32 (wuv.x * (timg.width : ℚ))) (toU32 (wuv.y * (timg.height : ℚ)))
      if material.alphaMode ≠ AlphaMode.Opaque ∧ timg.hasAlpha ∧ diffuse.a = 0 then
        pure (true, color)
      else if material.alphaMode = AlphaMode.Mask ∧ timg.hasAlpha ∧
          diffuse.Af < material.alphaCutOff then
        pure (true, color)
      else
        let diffuse :=
          if material.alphaMode = AlphaMode.Opaque then diffuse.opeque
          else if material.alphaMode = AlphaMode.Blend then
            let mix := framebuffer.get (toU32 p.x) (toU32 p.y)
            let blend := diffuse.Af
            let diffuse := diffuse.opeque
            let mixColor := mix.mulScalar (1 - blend)
            Color.addColor (diffuse.mulScalar blend) mixColor
          else diffuse
        pure (false, Color.addColor color (diffuse.mulVec4 material.baseColorFactor_sRGB))
    | none => some (false, color.addVec4 material.baseColorFactor_sRGB)
  | none => some (false, color.addVec4 material.baseColorFactor_sRGB)

/-- The lighting step of `DefaultShader::fragment` (skipped when
`unlit`): optional tangent-space normal mapping, Blinn-Phong specular
clamped by `maxShadingFactor`, toon-clamped diffuse factor. -/
def fragLighting (rf : RealFns) (ctx : ShaderContext) (prim : Primitive)
    (material : Material) (light : Light) (UV : Vec2)
    (inNormal inTangent lightDir halfDir : Vec3) (color : Color) : Option Color :=
  let N := normalize3 rf inNormal
  let L := normalize3 rf lightDir
  let nmapped : Option Vec3 :=
    if prim.hasTangent ∧ material.normalTexture.isSome then
      match material.normalTexture with
      | some ntex =>
        match ntex.image with
        | none => none
        | some img =>
          let T0 := normalize3 rf inTangent
          let T1 := T0.sub (Vec3.smul (T0.dot N) N)
          let B := N.cross T1
          let TBN : Mat3 := ⟨T1, B, N⟩
          let nm := img.get (toU32 (UV.x * (img.width : ℚ))) (toU32 (UV.y * (img.height : ℚ)))
          some (normalize3 rf (TBN.mulVec nm.toNormal))
      | none => none
  else some N
  match nmapped with
  | none => none
  | some N =>
    let specular := min ((max (halfDir.dot N) 0) ^ (16 : Nat)) ctx.maxShadingFactor
    let shadingFactor := min 1 (max (N.dot L) ctx.maxShadingFactor)
    let specularColor := ((light.color.mulScalar specular).mulScalar
      material.specularFactor).mulScalar (material.metallicFactor - material.roughnessFactor)
    if shadingFactor > 0 then
      some ⟨((color.mulScalar shadingFactor).addColor specularColor).r,
            ((color.mulScalar shadingFactor).addColor specularColor).g,
            ((color.mulScalar shadingFactor).addColor specularColor).b,
            color.a⟩
    else some color

/-- `DefaultShader::fragment` (shader.h).  The light pointer is
dereferenced (for `lightDir`/`viewDir`/`halfDir`) before any material,
unlit or null check, so a null `ctx.light` is a crash (`none`) on every
path.  Returns `(discard, color)`. -/
def DefaultShader.fragment (rf : RealFns) (ctx : ShaderContext) (prim : Primitive)
    (vy : DSVary) (framebuffer : Image) (bar p : Vec3) (backfacing : Bool)
    (color0 : Color) : Option (Bool × Color) :=
  let UV := vy.vUV.mulVec bar
  match ctx.light with
  | none => none
  | some light =>
    let inNormal := vy.vNormal.mulVec bar
    let inTangent := vy.vTangent.mulVec4Bar ⟨bar.x, bar.y, bar.z, 1⟩
    let inPosition := vy.vPosition.mulVec bar
    let lightDir := normalize3 rf (light.position.sub inPosition)
    let viewDir := normalize3 rf (inPosition.sub ctx.camera.translation)
    let halfDir := normalize3 rf (lightDir.sub viewDir)
    let inColor := vy.vColor.mulVec4Bar ⟨bar.x, bar.y, bar.z, 1⟩
    let afterMaterial : Option (Bool × Color) :=
      match prim.material with
      | none => some (false, color0)
      | some material =>
        if ¬material.doubleSided ∧ backfacing then some (true, color0)
        else do
          let color ← fragEmissive material UV color0
          let bc ← fragBaseColor material UV framebuffer p color
          if bc.1 then pure (true, bc.2)
          else
            let color := bc.2
            if ¬material.unlit then do
              let color ← fragLighting rf ctx prim material light UV
                inNormal inTangent lightDir halfDir color
              pure (false, color)
            else pure (false, color)
    match afterMaterial with
    | none => none
    | some (true, c) => some (true, c)
    | some (false, c) =>
      if prim.hasColor then
        some (false, c.mulVec4 ⟨inColor.x, inColor.y, inColor.z, 1⟩)
      else some (false, c)

/-- The varying matrices owned by an `OutlineShader` instance. -/
structure OSVary where
  vNormal : Mat3
  vUV : Mat3x2
deriving DecidableEq

/-- `OutlineShader::vertex` (shader.h): inverted-hull displacement of the
morphed vertex along its normalized morphed normal by
`0.01 * outlineWidth`, where `outlineWidth` is a mutable shader member
updated from the material's VRM0 block (mode 0 disables, mode 2 clamps
to 0.1, otherwise the raw width).  Returns the screen position, the
updated varyings and the updated `outlineWidth` member. -/
def OutlineShader.vertex (rf : RealFns) (ctx : ShaderContext) (prim : Primitive)
    (jointMatrices : Option (List Mat4)) (bindMatrix : Option Mat4)
    (morphs : Option (List Morph)) (fbW fbH : Nat) (iface ivert : Nat)
    (vy : OSVary) (outlineWidth : ℚ) : Option (Vec4 × OSVary × ℚ) :=
  let vertex0 := morphVert prim morphs iface ivert (prim.vert iface ivert)
  match skinning prim jointMatrices bindMatrix iface ivert with
  | none => none
  | some skinMat =>
    let step :=
      if prim.hasNormal then
        let normal := morphNormal prim morphs iface ivert (prim.normal iface ivert)
        let nCol := normal.mulMat ((ctx.model.mul skinMat).toMat3)
        let vy := { vy with vNormal := vy.vNormal.setCol ivert nCol }
        let ow :=
          match prim.material with
          | some material =>
            match material.vrm0 with
            | some vrm0 =>
              if vrm0.outlineWidthMode = 0 then 0
              else if vrm0.outlineWidthMode = 2 then min (1/10) vrm0.outlineWidth
              else vrm0.outlineWidth
            | none => outlineWidth
          | none => outlineWidth
        let outlineOffset := Vec3.smul ow (Vec3.smul (1/100) (normalize3 rf normal))
        (vertex0.add outlineOffset, vy, ow)
      else (vertex0, vy, outlineWidth)
    let vertex := step.1
    let vy := step.2.1
    let ow := step.2.2
    let vy := if prim.hasUV then { vy with vUV := vy.vUV.setCol ivert (prim.uv iface ivert) } else vy
    let glPos := glmProject vertex ((ctx.view.mul ctx.model).mul skinMat) ctx.projection
      ⟨0, 0, (fbW : ℚ), (fbH : ℚ)⟩
    some (⟨glPos.x, glPos.y, glPos.z, 1⟩, vy, ow)

/-- `OutlineShader::fragment` (shader.h): keep only back-facing
fragments; color is `outlineColor * widthFactor * lightingMix`, where
`outlineColor` is a mutable shader member overwritten from the VRM0
block when `hasOutlineColor`.  Returns
`(discard, fragment color, updated outlineColor member)`. -/
def OutlineShader.fragment (prim : Primitive) (vy : OSVary) (outlineColor : Color)
    (bar _p : Vec3) (backfacing : Bool) (color0 : Color) : Bool × Color × Color :=
  if ¬backfacing then (true, color0, outlineColor)
  else
    let vals :=
      match prim.material with
      | some material =>
        match material.vrm0 with
        | some vrm0 =>
          let oc := if vrm0.hasOutlineColor then vrm0.outlineColor else outlineColor
          let olm := if vrm0.hasOutlineLightingMix then vrm0.outlineLightingMix else 1
          let owf :=
            if vrm0.hasOutlineWidthTexture then
              match vrm0.outlineWidthTexture with
              | some texture =>
                let UV := vy.vUV.mulVec bar
                ((texture.get (toU32 (UV.x * (texture.width : ℚ)))
                  (toU32 (UV.y * (texture.height : ℚ)))).r : ℚ) / 255
              | none => 1
            else 1
          (oc, owf, olm)
        | none => (outlineColor, 1, 1)
      | none => (outlineColor, 1, 1)
    let newColor := (vals.1.mulScalar vals.2.1).mulScalar vals.2.2
    (false, newColor, vals.1)

/-! ## render.cpp helpers -/

/-- `barycentric(a, b, c, p)` (render.cpp): 2D barycentric coordinates of
`p` with respect to the triangle's xy projection.  A degenerate triangle
divides by zero (float inf/NaN; modelled as ℚ's 0). -/
def barycentric (a b c p : Vec3) : Vec3 :=
  let v0 := b.sub a
  let v1 := c.sub a
  let denom := 1 / (v0.x * v1.y - v1.x * v0.y)
  let v2 := p.sub a
  let v := (v2.x * v1.y - v1.x * v2.y) * denom
  let w := (v0.x * v2.y - v2.x * v0.y) * denom
  ⟨1 - v - w, v, w⟩

/-- `inBounds(x, y, width, height)` (render.cpp), over `int`. -/
def inBounds (x y width height : Int) : Bool :=
  0 ≤ x ∧ x < width ∧ 0 ≤ y ∧ y < height

/-- `isInTriangle(tri, w, h)` (render.cpp): some vertex (float coords
truncated to int) lies inside the framebuffer rectangle. -/
def isInTriangle (t0 t1 t2 : Vec3) (width height : Int) : Bool :=
  inBounds (ratTrunc t0.x) (ratTrunc t0.y) width height
  ∨ inBounds (ratTrunc t1.x) (ratTrunc t1.y) width height
  ∨ inBounds (ratTrunc t2.x) (ratTrunc t2.y) width height

/-- `getModelMatrix` (render.cpp):
`translate(t) * toMat4(r) * scale(s) * mat4(1)`. -/
def getModelMatrix (model : Model) : Mat4 :=
  (((glmTranslate model.translation).mul model.rotation.toMat4).mul
    (glmScale model.scale)).mul Mat4.id

/-- `getViewMatrix` (render.cpp): negate the camera translation, then
re-negate its z ("Z+"), i.e. use `(-t.x, -t.y, t.z)`. -/
def getViewMatrix (camera : Camera) : Mat4 :=
  let translation : Vec3 := ⟨-camera.translation.x, -camera.translation.y, camera.translation.z⟩
  ((glmTranslate translation).mul camera.rotation.toMat4).mul (glmScale camera.scale)

/-- `glm::ortho(left, right, bottom, top, near, far)` (right-handed,
-1..1 clip space). -/
def glmOrtho (l r b t n f : ℚ) : Mat4 :=
  ⟨⟨2/(r-l), 0, 0, 0⟩,
   ⟨0, 2/(t-b), 0, 0⟩,
   ⟨0, 0, -2/(f-n), 0⟩,
   ⟨-(r+l)/(r-l), -(t+b)/(t-b), -(f+n)/(f-n), 1⟩⟩

/-- `getOrthoMatrix(width, height, near, far)` (render.cpp):
`glm::ortho(aspect, -aspect, 1, -1, near, far)`. -/
def getOrthoMatrix (width height near far : ℚ) : Mat4 :=
  let aspect := width / height
  glmOrtho aspect (-aspect) 1 (-1) near far

/-- `getPerspectiveMatrix` (render.cpp) =
`glm::perspectiveFov(radians(fov), width, height, near, far)`; the
cotangent of the half angle is supplied by `rf.cotHalfFov` applied to
the field of view in degrees. -/
def getPerspectiveMatrix (rf : RealFns) (width height fov near far : ℚ) : Mat4 :=
  let hh := rf.cotHalfFov fov
  let ww := hh * height / width
  ⟨⟨ww, 0, 0, 0⟩,
   ⟨0, hh, 0, 0⟩,
   ⟨0, 0, -(far + near)/(far - near), -1⟩,
   ⟨0, 0, -(2 * far * near)/(far - near), 0⟩⟩

/-- `getProjectionMatrix` (render.cpp). -/
def getProjectionMatrix (rf : RealFns) (width height : Nat) (camera : Camera) : Mat4 :=
  if camera.mode = Projection.Orthographic then
    getOrthoMatrix (width : ℚ) (height : ℚ) camera.znear camera.zfar
  else
    getPerspectiveMatrix rf (width : ℚ) (height : ℚ) camera.fov camera.znear camera.zfar

/-- `bb(tri, width, height)` (render.cpp): float min/max truncated to
int, clamped to `[0, width-1] × [0, height-1]`.  Returned as
`(left, bottom, right, top)` = the source's `uvec4{x, y, z, w}`;
components are kept as `Int` (the `uvec4` conversion of a negative value
only happens for degenerate framebuffers, where `drawBB` is never
invoked thanks to the `isInTriangle` guard). -/
def bb (t0 t1 t2 : Vec3) (width height : Int) : Int × Int × Int × Int :=
  let left := max (ratTrunc (min t0.x (min t1.x t2.x))) 0
  let right := min (ratTrunc (max t0.x (max t1.x t2.x))) (width - 1)
  let bottom := max (ratTrunc (min t0.y (min t1.y t2.y))) 0
  let top := min (ratTrunc (max t0.y (max t1.y t2.y))) (height - 1)
  (left, bottom, right, top)

/-- `backfacing(tri)` (render.cpp): sign of the signed edge-sum area. -/
def backfacing (a b c : Vec3) : Bool :=
  (a.x * b.y - a.y * b.x + b.x * c.y - b.y * c.x + c.x * a.y - c.y * a.x) > 0

/-! ## Rasterizer and multi-pass compositor (render.cpp) -/

def Mat3.zero : Mat3 := ⟨⟨0,0,0⟩, ⟨0,0,0⟩, ⟨0,0,0⟩⟩

def Mat3x2.zero : Mat3x2 := ⟨⟨0,0⟩, ⟨0,0⟩, ⟨0,0⟩⟩

def Mat4.zero : Mat4 := ⟨⟨0,0,0,0⟩, ⟨0,0,0,0⟩, ⟨0,0,0,0⟩, ⟨0,0,0,0⟩⟩

/-- The two stock shader kinds instantiated by `render` (`DefaultShader
standard; OutlineShader outline;`). -/
inductive ShaderKind where
  | standard
  | outline
deriving DecidableEq, Repr

/-- One shader instance: the `Shader` base-class slots (framebuffer,
z-buffer, current primitive / joint-matrix / bind-matrix / morph
pointers) together with the derived-class members of whichever concrete
shader this is (`DSVary` for `DefaultShader`; `OSVary`, `outlineColor`
and `outlineWidth` for `OutlineShader`).  Carrying both variants' members
in one record models the virtual dispatch; each kind only ever touches
its own members. -/
structure ShaderObj where
  kind : ShaderKind
  framebuffer : Image
  zbuffer : List ℚ
  primitive : Option Primitive
  jointMatrices : Option (List Mat4)
  bindMatrix : Option Mat4
  morphs : Option (List Morph)
  dsv : DSVary
  osv : OSVary
  outlineColor : Color
  outlineWidth : ℚ

/-- The z-buffer initialization expression appearing twice in render.cpp:
`std::vector<float>(width * height, std::numeric_limits<float>::min())`
(line 328 for the compositor's accumulation buffer, line 349 for each
shader pass). -/
def zbufferInit (width height : Nat) : List ℚ :=
  List.replicate (width * height) floatMin

/-- A freshly constructed shader before `render` resizes its buffers:
null pointers, value-initialized (zero) varying matrices, and the
`OutlineShader` member defaults `outlineColor{0,0,0,178}` and
`outlineWidth{0.1f}`. -/
def initShaderObj (kind : ShaderKind) : ShaderObj :=
  { kind := kind
    framebuffer := ⟨0, 0, Format.RGBA, []⟩
    zbuffer := []
    primitive := none
    jointMatrices := none
    bindMatrix := none
    morphs := none
    dsv := ⟨Mat3.zero, Mat3.zero, Mat3.zero, Mat3.zero, Mat3x2.zero⟩
    osv := ⟨Mat3.zero, Mat3x2.zero⟩
    outlineColor := ⟨0, 0, 0, 178⟩
    outlineWidth := 1/10 }

/-- Virtual dispatch of `shader->vertex(ctx, iface, ivert)`.  The
`assert(primitive != nullptr)` / null deref is modelled as `none`. -/
def shaderVertex (rf : RealFns) (ctx : ShaderContext) (st : ShaderObj)
    (iface ivert : Nat) : Option (Vec4 × ShaderObj) :=
  match st.primitive with
  | none => none
  | some prim =>
    match st.kind with
    | .standard =>
      match DefaultShader.vertex ctx prim st.jointMatrices st.bindMatrix st.morphs
        st.framebuffer.width st.framebuffer.height iface ivert st.dsv with
      | none => none
      | some (pos, vy) => some (pos, { st with dsv := vy })
    | .outline =>
      match OutlineShader.vertex rf ctx prim st.jointMatrices st.bindMatrix st.morphs
        st.framebuffer.width st.framebuffer.height iface ivert st.osv st.outlineWidth with
      | none => none
      | some (pos, vy, ow) => some (pos, { st with osv := vy, outlineWidth := ow })

/-- Virtual dispatch of `shader->fragment(ctx, bar, p, backfacing, color)`.
Returns `(discarded, color, shader)` (the outline shader mutates its
`outlineColor` member). -/
def shaderFragment (rf : RealFns) (ctx : ShaderContext) (st : ShaderObj)
    (bar p : Vec3) (bf : Bool) (color0 : Color) : Option (Bool × Color × ShaderObj) :=
  match st.primitive with
  | none => none
  | some prim =>
    match st.kind with
    | .standard =>
      match DefaultShader.fragment rf ctx prim st.dsv st.framebuffer bar p bf color0 with
      | none => none
      | some (d, c) => some (d, c, st)
    | .outline =>
      let r := OutlineShader.fragment prim st.osv st.outlineColor bar p bf color0
      some (r.1, r.2.1, { st with outlineColor := r.2.2 })

/-- The loop body of `drawBB` (render.cpp) at pixel `(x, y)`: coverage
test on the barycentric coordinates, bounds + depth test, fragment
dispatch starting from `Color color(0, 0, 0, 0)`, then the z-buffer and
framebuffer writes (skipped if the fragment is discarded). -/
def drawPixel (rf : RealFns) (ctx : ShaderContext) (t0 t1 t2 : Vec3) (depths : Vec3)
    (st : ShaderObj) (xy : Nat × Nat) : Option ShaderObj :=
  let width := st.framebuffer.width
  let height := st.framebuffer.height
  let p : Vec3 := ⟨(xy.1 : ℚ), (xy.2 : ℚ), 1⟩
  let bcoords := barycentric t0 t1 t2 p
  if bcoords.x ≥ 0 ∧ bcoords.y ≥ 0 ∧ bcoords.z ≥ 0 then
    let frag_depth := bcoords.dot depths
    if inBounds xy.1 xy.2 width height ∧
        frag_depth > st.zbuffer.getD (xy.1 + xy.2 * width) 0 then
      match shaderFragment rf ctx st bcoords p (backfacing t0 t1 t2) ⟨0, 0, 0, 0⟩ with
      | none => none
      | some (discarded, color, st) =>
        if discarded then some st
        else some { st with
                    zbuffer := st.zbuffer.set (xy.1 + xy.2 * width) frag_depth
                    framebuffer := st.framebuffer.set xy.1 xy.2 color }
    else some st
  else some st

/-- Inclusive integer range `[lo, hi]` (empty when `hi < lo`). -/
def intRangeIncl (lo hi : Int) : List Int :=
  (List.range (hi + 1 - lo).toNat).map (fun i => lo + i)

/-- `drawBB` (render.cpp): scan the clamped bounding box row by row
(`y` outer, `x` inner) and run `drawPixel` at each pixel.  `bbox` is
`(left, bottom, right, top)`; by the `isInTriangle` guard at the call
site all components are within the framebuffer, hence nonnegative. -/
def drawBB (rf : RealFns) (ctx : ShaderContext) (st : ShaderObj)
    (bbox : Int × Int × Int × Int) (t0 t1 t2 : Vec3) (depths : Vec3) : Option ShaderObj :=
  let pixels := (intRangeIncl bbox.2.1 bbox.2.2.2).flatMap
    (fun y => (intRangeIncl bbox.1 bbox.2.2.1).map (fun x => (x.toNat, y.toNat)))
  pixels.foldlM (drawPixel rf ctx t0 t1 t2 depths) st

/-- `RenderOp` (render.cpp): one primitive of one node, queued for one
pass.  The `options`/`shader`/`ctx` pointers of the C++ struct are the
same for every op of a pass and are supplied at the call sites. -/
structure RenderOp where
  node : Node
  primitive : Primitive

/-- The queue key chosen by `queue` (render.cpp): the material's VRM0
`renderQueue` when material and VRM0 block are present, else 0. -/
def queueKey (p : Primitive) : Nat :=
  match p.material with
  | some m =>
    match m.vrm0 with
    | some v => v.renderQueue
    | none => 0
  | none => 0

/-- `std::map<uint32_t, std::vector<RenderOp>>` insertion: find the key's
vector and push back, or emplace a fresh singleton vector.  The list is
kept sorted by key, which is exactly the map's iteration order. -/
def rqInsert (k : Nat) (op : RenderOp) :
    List (Nat × List RenderOp) → List (Nat × List RenderOp)
  | [] => [(k, [op])]
  | (k', ops) :: rest =>
    if k = k' then (k', ops ++ [op]) :: rest
    else if k < k' then (k, [op]) :: (k', ops) :: rest
    else (k', ops) :: rqInsert k op rest

mutual

/-- `queue` (render.cpp): enqueue every primitive of the node's mesh
under its queue key, then recurse into the children. -/
def queueNode (node : Node) (rq : List (Nat × List RenderOp)) :
    List (Nat × List RenderOp) :=
  match node with
  | .mk name mesh skin children mat visible bindMat =>
    let rq := match mesh with
      | some m => m.primitives.foldl
          (fun rq prim =>
            rqInsert (queueKey prim)
              ⟨Node.mk name mesh skin children mat visible bindMat, prim⟩ rq) rq
      | none => rq
    queueList children rq

def queueList (nodes : List Node) (rq : List (Nat × List RenderOp)) :
    List (Nat × List RenderOp) :=
  match nodes with
  | [] => rq
  | n :: rest => queueList rest (queueNode n rq)

end

/-- The per-face body of `draw(RenderOp*)` (render.cpp): run the vertex
shader on the three corners, then rasterize the bounding box if some
corner is inside the framebuffer. -/
def drawFace (rf : RealFns) (ctx : ShaderContext) (st : ShaderObj) (i : Nat) :
    Option ShaderObj :=
  match shaderVertex rf ctx st i 0 with
  | none => none
  | some (p0, st) =>
    match shaderVertex rf ctx st i 1 with
    | none => none
    | some (p1, st) =>
      match shaderVertex rf ctx st i 2 with
      | none => none
      | some (p2, st) =>
        let t0 := p0.xyz
        let t1 := p1.xyz
        let t2 := p2.xyz
        let depths : Vec3 := ⟨t0.z, t1.z, t2.z⟩
        if isInTriangle t0 t1 t2 st.framebuffer.width st.framebuffer.height then
          drawBB rf ctx st
            (bb t0 t1 t2 st.framebuffer.width st.framebuffer.height) t0 t1 t2 depths
        else some st

/-- `draw(RenderOp *op)` (render.cpp): update the shader's joint-matrix
or bind-matrix slot from the node, set the morph and primitive slots,
and rasterize every face of the op's primitive. -/
def drawOp (rf : RealFns) (ctx : ShaderContext) (st : ShaderObj) (op : RenderOp) :
    Option ShaderObj :=
  let st := match op.node.skin with
    | some skin => { st with jointMatrices := some skin.jointMatrices }
    | none => { st with bindMatrix := some op.node.bindMatrix }
  match op.node.mesh with
  | none => some st
  | some mesh =>
    let st := { st with morphs := some mesh.morphs, primitive := some op.primitive }
    (List.range op.primitive.numFaces).foldlM (drawFace rf ctx) st

/-- The pass-drawing loop (render.cpp, second `omp parallel for` body):
walk the queues in ascending key order; in each queue z-sort the ops with
`std::sort` (comparator `a.primitive->center.z < b.primitive->center.z`,
supplied here as the `ssort` parameter since `std::sort` guarantees only
a sorted permutation) and draw them in order. -/
def drawPass (rf : RealFns) (ctx : ShaderContext)
    (ssort : List RenderOp → List RenderOp) (st : ShaderObj)
    (rq : List (Nat × List RenderOp)) : Option ShaderObj :=
  rq.foldlM (fun st kops => (ssort kops.2).foldlM (drawOp rf ctx) st) st

/-- The body of the compositor loops (render.cpp lines 383–405) at pixel
index `i` for one pass: depth-resolve, with the alpha-blend branch when
the output is RGBA and the pass pixel's alpha is not 255. -/
def compositeAt (stride : Format) (i : Nat) (acc : List ℚ × List Nat)
    (sh : ShaderObj) : List ℚ × List Nat :=
  let current := i * stride.toNat
  let dstDepth := acc.1.getD i 0
  let srcDepth := sh.zbuffer.getD i 0
  if dstDepth < srcDepth then
    let zb := acc.1.set i srcDepth
    let src := sh.framebuffer.data
    if stride = Format.RGBA ∧ src.getD (current + 3) 0 ≠ 255 then
      let srcColor := Color.fromBytes (readBytes src current stride.toNat) stride
      let dstColor := Color.fromBytes (readBytes acc.2 current stride.toNat) stride
      let alpha := srcColor.Af
      let dstAColor := dstColor.mulScalar (1 - alpha)
      let srcAColor := srcColor.mulScalar alpha
      let mixed := dstAColor.addColor srcAColor
      (zb, writeBytes acc.2 current (mixed.bytes stride))
    else
      (zb, writeBytes acc.2 current (readBytes src current stride.toNat))
  else acc

/-- The full compositor: for every pixel index, fold the passes in
order over the accumulation z-buffer and the output byte buffer. -/
def composite (stride : Format) (n : Nat) (passes : List ShaderObj)
    (zb : List ℚ) (dst : List Nat) : List ℚ × List Nat :=
  (List.range n).foldl (fun acc i => passes.foldl (compositeAt stride i) acc) (zb, dst)

/-- `generateVignette` (render.cpp): fill still-transparent pixels with
the background color attenuated by `(height − distance)/height`. -/
def generateVignette (rf : RealFns) (dst : Image) (bgColor : Color) : Image :=
  (pixelList dst.width dst.height).foldl
    (fun img xy =>
      let srcColor := img.get xy.1 xy.2
      if srcColor.a ≠ 0 then img
      else
        let dx := (xy.1 : ℚ) - (img.width : ℚ) / 2
        let dy := (xy.2 : ℚ) - (img.height : ℚ) / 2
        let distance := rf.sqrtq (dx ^ (2 : Nat) + dy ^ (2 : Nat))
        let factor := ((img.height : ℚ) - distance) / (img.height : ℚ)
        img.set xy.1 xy.2
          ⟨cppFloatToByte ((bgColor.r : ℚ) * factor),
           cppFloatToByte ((bgColor.g : ℚ) * factor),
           cppFloatToByte ((bgColor.b : ℚ) * factor), 255⟩)
    dst

/-- `generateSSAA` (render.cpp): box filter over `k × k` blocks.  `sq` is
a `uint8_t`, so `k*k` wraps mod 256; `R /= (float)sq` with `sq = 0` is a
float division by zero (UB on the integer write-back; modelled as ℚ's
0).  The means are written with alpha 255. -/
def generateSSAA (dst src : Image) (kernelSize : Nat) : Image :=
  let sq := (kernelSize * kernelSize) % 256
  let dst := dst.reset (src.width / kernelSize) (src.height / kernelSize) src.format
  (pixelList dst.width dst.height).foldl
    (fun img xy =>
      let xx := xy.1 * kernelSize
      let yy := xy.2 * kernelSize
      let rgb := (List.range kernelSize).foldl
        (fun acc i => (List.range kernelSize).foldl
          (fun acc j =>
            let c := src.get (xx + i) (yy + j)
            (acc.1 + c.r, acc.2.1 + c.g, acc.2.2 + c.b)) acc)
        ((0, 0, 0) : Nat × Nat × Nat)
      let R := (ratTrunc ((rgb.1 : ℚ) / (sq : ℚ))).toNat
      let G := (ratTrunc ((rgb.2.1 : ℚ) / (sq : ℚ))).toNat
      let B := (ratTrunc ((rgb.2.2 : ℚ) / (sq : ℚ))).toNat
      img.set xy.1 xy.2 ⟨R % 256, G % 256, B % 256, 255⟩)
    dst

/-- One pass of the two `omp parallel for` loops in `render` (lines
345–377): size this shader's z-buffer and framebuffer, build its render
queue from the scene roots, then draw the queues.  Each pass owns its
state, so the parallel loops are observationally this `mapM`. -/
def runPass (rf : RealFns) (ctx : ShaderContext)
    (ssort : List RenderOp → List RenderOp) (scene : Scene)
    (width height : Nat) (fmt : Format) (kind : ShaderKind) : Option ShaderObj :=
  let st := initShaderObj kind
  let st := { st with
              zbuffer := zbufferInit width height
              framebuffer := st.framebuffer.reset width height fmt }
  let rq := queueList scene.children []
  drawPass rf ctx ssort st rq

/-- `render(Scene &scene, Image &framebuffer)` (render.cpp).  `none`
models a crash (null-pointer dereference in a shader, or the dimension
assert in `Image::copy`).  `ssort` stands for `std::sort` on render ops
(see `drawPass`). -/
def render (rf : RealFns) (ssort : List RenderOp → List RenderOp)
    (scene : Scene) (framebuffer : Image) : Option Image :=
  let options := scene.options
  let width := options.width * (if options.ssaa then options.ssaaKernelSize else 1)
  let height := options.height * (if options.ssaa then options.ssaaKernelSize else 1)
  let camera := options.camera
  let ctx : ShaderContext :=
    { projection := getProjectionMatrix rf width height camera
      view := getViewMatrix camera
      model := getModelMatrix options.model
      viewport := Mat4.zero
      camera := camera
      light := scene.light
      bgColor := options.background
      maxShadingFactor := 4/5 }
  let zbuffer := zbufferInit width height
  let framebuffer := framebuffer.reset width height options.format
  let shaders : List ShaderKind :=
    [ShaderKind.standard] ++ (if options.outline then [ShaderKind.outline] else [])
  match shaders.mapM (runPass rf ctx ssort scene width height options.format) with
  | none => none
  | some passes =>
    let comp := composite options.format (width * height) passes zbuffer framebuffer.data
    let framebuffer := { framebuffer with data := comp.2 }
    let framebuffer :=
      if options.vignette then generateVignette rf framebuffer ctx.bgColor
      else framebuffer.fill ctx.bgColor
    if options.ssaa then
      let tmp := Image.mk' options.width options.height options.format
      let tmp := generateSSAA tmp framebuffer options.ssaaKernelSize
      let framebuffer := framebuffer.reset options.width options.height options.format
      framebuffer.copy tmp
    else some framebuffer

/-! ## General lemmas about the byte-buffer primitives -/

theorem writeBytes_length (src data : List Nat) (off : Nat) :
    (writeBytes data off src).length = data.length := by
  induction src generalizing data off with
  | nil => rfl
  | cons b rest ih => simpa [writeBytes] using ih (data.set off b) (off + 1)

/-! ## C6: out-of-bounds get/set -/

/-- C6 (counterexample): `Image::get` out of bounds returns the
default-constructed `Color()`, which is opaque black `(0,0,0,255)` —
not the all-zero color the claim states. -/
theorem C6_get_oob_not_zero :
    Image.get ⟨1, 1, Format.RGBA, [1, 2, 3, 4]⟩ 2 0 = Color.init ∧
    Color.init ≠ (⟨0, 0, 0, 0⟩ : Color) := by
  constructor
  · rfl
  · decide

/-- C6 (amended): for every image and coordinate outside
`[0,width) × [0,height)`, `get` returns opaque black
`Color() = (0,0,0,255)` and `set` leaves the image unchanged. -/
theorem C6_get_set_out_of_bounds (img : Image) (x y : Nat) (c : Color)
    (h : x ≥ img.width ∨ y ≥ img.height) :
    Image.get img x y = Color.init ∧ Image.set img x y c = img ∧
    Color.init = (⟨0, 0, 0, 255⟩ : Color) := by
  have hc : (img.data.length = 0 ∨ x ≥ img.width ∨ y ≥ img.height) := Or.inr h
  exact ⟨by simp only [Image.get, if_pos hc], by simp only [Image.set, if_pos hc], rfl⟩

/-- C6 witness: the amended theorem applied at a concrete 1×1 image and
the out-of-bounds pixel (5, 0). -/
theorem C6_get_set_out_of_bounds_witness :
    Image.get ⟨1, 1, Format.RGBA, [1, 2, 3, 4]⟩ 5 0 = Color.init ∧
    Image.set ⟨1, 1, Format.RGBA, [1, 2, 3, 4]⟩ 5 0 ⟨9, 9, 9, 9⟩ =
      ⟨1, 1, Format.RGBA, [1, 2, 3, 4]⟩ ∧
    Color.init = (⟨0, 0, 0, 255⟩ : Color) :=
  C6_get_set_out_of_bounds ⟨1, 1, Format.RGBA, [1, 2, 3, 4]⟩ 5 0 ⟨9, 9, 9, 9⟩
    (Or.inl (by decide))

/-! ## C7: Color arithmetic -/

/-- Modelled from the spec (§3, §4.1, C7): the claimed saturating byte
conversion for channel values `c[i] + v[i]·255`: at or above 255 the
result clamps to 255. -/
def specSaturatingByte (q : ℚ) : Nat :=
  if 255 ≤ q then 255 else cppFloatToByte q

/-- Modelled from the spec: "adding a float vec4 computes, per channel,
c[i] + v[i]·255 saturating at 255". -/
def specAddVec4 (c : Color) (v : Vec4) : Color :=
  ⟨specSaturatingByte ((c.r : ℚ) + v.x * 255), specSaturatingByte ((c.g : ℚ) + v.y * 255),
   specSaturatingByte ((c.b : ℚ) + v.z * 255), specSaturatingByte ((c.a : ℚ) + v.w * 255)⟩

/-- C7 (counterexample): `Color(200,0,0,0) + vec4(1,0,0,0)` produces 199
in the red channel (float 455 truncated to a byte), not the 255 the
claimed saturation would give. -/
theorem C7_addVec4_not_saturating :
    Color.addVec4 ⟨200, 0, 0, 0⟩ ⟨1, 0, 0, 0⟩ = ⟨199, 0, 0, 0⟩ ∧
    specAddVec4 ⟨200, 0, 0, 0⟩ ⟨1, 0, 0, 0⟩ = ⟨255, 0, 0, 0⟩ ∧
    (⟨199, 0, 0, 0⟩ : Color) ≠ ⟨255, 0, 0, 0⟩ := by
  refine ⟨?_, ?_, by decide⟩ <;>
    · simp only [Color.addVec4, specAddVec4, specSaturatingByte, cppFloatToByte,
        ratTrunc, Color.mk.injEq]
      norm_num
      try decide

/-- C7 (amended): scalar multiplication clamps the factor to [0,1] before
multiplying (so re-clamping changes nothing); adding a float vec4
computes `c[i] + v[i]·255` per channel converted straight to a byte with
no saturation (out-of-range conversions are UB in ISO C++, modelled as
truncate-and-wrap); Color + Color saturates at 255 per channel. -/
theorem C7_color_ops (c d : Color) (s : ℚ) (v : Vec4) :
    Color.mulScalar c s = Color.mulScalar c (max 0 (min s 1)) ∧
    Color.addVec4 c v =
      ⟨cppFloatToByte ((c.r : ℚ) + v.x * 255), cppFloatToByte ((c.g : ℚ) + v.y * 255),
       cppFloatToByte ((c.b : ℚ) + v.z * 255), cppFloatToByte ((c.a : ℚ) + v.w * 255)⟩ ∧
    Color.addColor c d =
      ⟨min 255 (c.r + d.r), min 255 (c.g + d.g), min 255 (c.b + d.b), min 255 (c.a + d.a)⟩ := by
  refine ⟨?_, rfl, rfl⟩
  have hle : max 0 (min s 1) ≤ 1 := max_le (by norm_num) (min_le_right _ _)
  have h0 : (0 : ℚ) ≤ max 0 (min s 1) := le_max_left _ _
  simp only [Color.mulScalar]
  rw [min_eq_left hle, max_eq_right h0]

/-! ## C2: z-buffer initialization value -/

/-- C2 (counterexample): the z-buffers are initialized with
`std::numeric_limits<float>::min()` = 2⁻¹²⁶ (the smallest positive
normalized float), which is not the minimum finite float
(`lowest()` = −(2−2⁻²³)·2¹²⁷) the claim states. -/
theorem C2_zbuffer_init_counterexample :
    zbufferInit 1 1 = [floatMin] ∧ floatMin ≠ floatLowest := by
  constructor
  · rfl
  · norm_num [floatMin, floatLowest]

/-- C2 (amended): every entry of the z-buffer initialization vector —
used both for each pass's z-buffer (`runPass`) and for the compositor's
accumulation z-buffer (`render`) — equals
`std::numeric_limits<float>::min()` = 2⁻¹²⁶. -/
theorem C2_zbuffer_init_value (w h : Nat) (q : ℚ) (hq : q ∈ zbufferInit w h) :
    q = floatMin ∧ floatMin = 1 / 2 ^ 126 := by
  rw [zbufferInit] at hq
  exact ⟨List.eq_of_mem_replicate hq, rfl⟩

/-- C2 witness: the amended theorem applied to the sole entry of a 1×1
z-buffer. -/
theorem C2_zbuffer_init_value_witness :
    floatMin ∈ zbufferInit 1 1 ∧ (floatMin = floatMin ∧ floatMin = 1 / 2 ^ 126) :=
  ⟨by simp [zbufferInit], C2_zbuffer_init_value 1 1 floatMin (by simp [zbufferInit])⟩

/-! ## C9: DefaultShader::fragment dereferences the light unconditionally -/

/-- C9: `DefaultShader::fragment` computes `lightDir`/`viewDir`/`halfDir`
by dereferencing `ctx.light` before any material, unlit or null check, so
with a null light every invocation crashes (`none`) — for every
primitive, including unlit materials and primitives with no material;
and `Scene::light` defaults to null. -/
theorem C9_fragment_needs_light (rf : RealFns) (ctx : ShaderContext)
    (prim : Primitive) (vy : DSVary) (fb : Image) (bar p : Vec3) (bf : Bool)
    (c0 : Color) (h : ctx.light = none) :
    DefaultShader.fragment rf ctx prim vy fb bar p bf c0 = none ∧
    ({} : Scene).light = none := by
  refine ⟨?_, rfl⟩
  simp only [DefaultShader.fragment, h]

/-- C9 witness: a concrete context with a null light crashes the
fragment stage even though the primitive has no material at all. -/
theorem C9_fragment_needs_light_witness :
    (⟨Mat4.id, Mat4.id, Mat4.zero, Mat4.id, Camera.init, none, Color.init, 4/5⟩ :
      ShaderContext).light = none ∧
    (DefaultShader.fragment ⟨id, id⟩
      ⟨Mat4.id, Mat4.id, Mat4.zero, Mat4.id, Camera.init, none, Color.init, 4/5⟩
      ⟨none, [], [], [], [], [], [], [], [], [], ⟨0,0,0⟩, ⟨0,0,0⟩, ⟨0,0,0⟩⟩
      ⟨Mat3.zero, Mat3.zero, Mat3.zero, Mat3.zero, Mat3x2.zero⟩
      ⟨0, 0, Format.RGBA, []⟩ ⟨0,0,0⟩ ⟨0,0,0⟩ false ⟨0,0,0,0⟩ = none ∧
      ({} : Scene).light = none) :=
  ⟨rfl, C9_fragment_needs_light ⟨id, id⟩
      ⟨Mat4.id, Mat4.id, Mat4.zero, Mat4.id, Camera.init, none, Color.init, 4/5⟩
      ⟨none, [], [], [], [], [], [], [], [], [], ⟨0,0,0⟩, ⟨0,0,0⟩, ⟨0,0,0⟩⟩
      ⟨Mat3.zero, Mat3.zero, Mat3.zero, Mat3.zero, Mat3x2.zero⟩
      ⟨0, 0, Format.RGBA, []⟩ ⟨0,0,0⟩ ⟨0,0,0⟩ false ⟨0,0,0,0⟩ rfl⟩

/-! ## C10: clampToEdge always reads the base-color image -/

/-- C10: with CLAMP_TO_EDGE wrapping, `wrap` computes the half-texel
inset via `clampToEdge`, which reads `material->baseColorTexture->image`
regardless of which texture is being wrapped — so any two
clamp-both-axes textures wrap identically, and the call crashes (`none`)
whenever the base-color texture or its image is null. -/
theorem C10_clamp_uses_base_color_image (material : Material) (uv : Vec2)
    (texture : Texture) (hS : texture.wrapS = WrapMode.CLAMP_TO_EDGE)
    (hT : texture.wrapT = WrapMode.CLAMP_TO_EDGE) :
    DefaultShader.wrap material uv texture = DefaultShader.clampToEdge material uv ∧
    (∀ t2 : Texture, t2.wrapS = WrapMode.CLAMP_TO_EDGE →
      t2.wrapT = WrapMode.CLAMP_TO_EDGE →
      DefaultShader.wrap material uv texture = DefaultShader.wrap material uv t2) ∧
    (material.baseColorTexture = none →
      DefaultShader.wrap material uv texture = none) ∧
    (∀ t : Texture, material.baseColorTexture = some t → t.image = none →
      DefaultShader.wrap material uv texture = none) := by
  have hmain : ∀ tx : Texture, tx.wrapS = WrapMode.CLAMP_TO_EDGE →
      tx.wrapT = WrapMode.CLAMP_TO_EDGE →
      DefaultShader.wrap material uv tx = DefaultShader.clampToEdge material uv := by
    intro tx h1 h2
    simp [DefaultShader.wrap, h1, h2]
  refine ⟨hmain texture hS hT, ?_, ?_, ?_⟩
  · intro t2 h1 h2
    rw [hmain texture hS hT, hmain t2 h1 h2]
  · intro hb
    rw [hmain texture hS hT]
    simp [DefaultShader.clampToEdge, hb]
  · intro t hb hi
    rw [hmain texture hS hT]
    simp [DefaultShader.clampToEdge, hb, hi]

/-- C10 witness: with a concrete material whose base-color texture is a
2×2 image, wrapping an emissive-style texture whose own image is absent
still clamps against the base-color image's half-texel inset. -/
theorem C10_clamp_uses_base_color_image_witness :
    DefaultShader.wrap
      ⟨⟨1,1,1,1⟩, ⟨1,1,1,1⟩, ⟨0,0,0⟩,
        some ⟨some ⟨2, 2, Format.RGBA, List.replicate 16 0⟩, WrapMode.REPEAT, WrapMode.REPEAT⟩,
        none, none, AlphaMode.Opaque, 0, 1, 1, 0, false, false, none⟩ ⟨3/4, 1/4⟩
      ⟨none, WrapMode.CLAMP_TO_EDGE, WrapMode.CLAMP_TO_EDGE⟩ =
    DefaultShader.clampToEdge
      ⟨⟨1,1,1,1⟩, ⟨1,1,1,1⟩, ⟨0,0,0⟩,
        some ⟨some ⟨2, 2, Format.RGBA, List.replicate 16 0⟩, WrapMode.REPEAT, WrapMode.REPEAT⟩,
        none, none, AlphaMode.Opaque, 0, 1, 1, 0, false, false, none⟩ ⟨3/4, 1/4⟩ :=
  (C10_clamp_uses_base_color_image
    ⟨⟨1,1,1,1⟩, ⟨1,1,1,1⟩, ⟨0,0,0⟩,
      some ⟨some ⟨2, 2, Format.RGBA, List.replicate 16 0⟩, WrapMode.REPEAT, WrapMode.REPEAT⟩,
      none, none, AlphaMode.Opaque, 0, 1, 1, 0, false, false, none⟩ ⟨3/4, 1/4⟩
    ⟨none, WrapMode.CLAMP_TO_EDGE, WrapMode.CLAMP_TO_EDGE⟩ rfl rfl).1

/-! ## C8: all-zero morph weights are a no-op -/

/-- A primitive with its morph-target list removed. -/
def Primitive.clearTargets (p : Primitive) : Primitive := { p with targets := [] }

theorem foldl_addsmul3_zero (g : Nat → Vec3) (wt : Nat → ℚ) (l : List Nat)
    (h : ∀ i ∈ l, wt i = 0) (v : Vec3) :
    l.foldl (fun v i => v.add (Vec3.smul (wt i) (g i))) v = v := by
  induction l generalizing v with
  | nil => rfl
  | cons a rest ih =>
    have ha := h a (List.mem_cons_self a rest)
    have hv : v.add (Vec3.smul (wt a) (g a)) = v := by
      simp [Vec3.add, Vec3.smul, ha]
    rw [List.foldl_cons, hv]
    exact ih (fun i hi => h i (List.mem_cons_of_mem _ hi)) v

theorem foldl_addsmul4_zero (g : Nat → Vec4) (wt : Nat → ℚ) (l : List Nat)
    (h : ∀ i ∈ l, wt i = 0) (v : Vec4) :
    l.foldl (fun v i => v.add (Vec4.smul (wt i) (g i))) v = v := by
  induction l generalizing v with
  | nil => rfl
  | cons a rest ih =>
    have ha := h a (List.mem_cons_self a rest)
    have hv : v.add (Vec4.smul (wt a) (g a)) = v := by
      simp [Vec4.add, Vec4.smul, ha]
    rw [List.foldl_cons, hv]
    exact ih (fun i hi => h i (List.mem_cons_of_mem _ hi)) v

/-- With all-zero morph weights, `morphVert` leaves the vertex unchanged. -/
theorem morphVert_zero (prim : Primitive) (morphs : Option (List Morph))
    (h : ∀ ms, morphs = some ms → ∀ m ∈ ms, m.weight = 0) (iface ivert : Nat) (v : Vec3) :
    morphVert prim morphs iface ivert v = v := by
  unfold morphVert
  cases morphs with
  | none => rfl
  | some ms =>
    simp only
    split
    · rfl
    · next hlen =>
      refine foldl_addsmul3_zero _ _ _ ?_ v
      intro i hi
      have hilt : i < prim.numTargets := List.mem_range.mp hi
      have hile : i < ms.length := lt_of_lt_of_le hilt (le_of_not_lt hlen)
      have : ms.getD i ⟨"", 0⟩ ∈ ms := by
        rw [List.getD_eq_getElem ms _ hile]
        exact List.getElem_mem hile
      exact h ms rfl _ this

/-- With all-zero morph weights, `morphNormal` leaves the normal unchanged. -/
theorem morphNormal_zero (prim : Primitive) (morphs : Option (List Morph))
    (h : ∀ ms, morphs = some ms → ∀ m ∈ ms, m.weight = 0) (iface ivert : Nat) (v : Vec3) :
    morphNormal prim morphs iface ivert v = v := by
  unfold morphNormal
  cases morphs with
  | none => rfl
  | some ms =>
    simp only
    split
    · rfl
    · next hlen =>
      refine foldl_addsmul3_zero _ _ _ ?_ v
      intro i hi
      have hilt : i < prim.numTargets := List.mem_range.mp hi
      have hile : i < ms.length := lt_of_lt_of_le hilt (le_of_not_lt hlen)
      have : ms.getD i ⟨"", 0⟩ ∈ ms := by
        rw [List.getD_eq_getElem ms _ hile]
        exact List.getElem_mem hile
      exact h ms rfl _ this

/-- With all-zero morph weights, `morphTangent` leaves the tangent unchanged. -/
theorem morphTangent_zero (prim : Primitive) (morphs : Option (List Morph))
    (h : ∀ ms, morphs = some ms → ∀ m ∈ ms, m.weight = 0) (iface ivert : Nat) (v : Vec4) :
    morphTangent prim morphs iface ivert v = v := by
  unfold morphTangent
  cases morphs with
  | none => rfl
  | some ms =>
    simp only
    split
    · rfl
    · next hlen =>
      refine foldl_addsmul4_zero _ _ _ ?_ v
      intro i hi
      have hilt : i < prim.numTargets := List.mem_range.mp hi
      have hile : i < ms.length := lt_of_lt_of_le hilt (le_of_not_lt hlen)
      have : ms.getD i ⟨"", 0⟩ ∈ ms := by
        rw [List.getD_eq_getElem ms _ hile]
        exact List.getElem_mem hile
      exact h ms rfl _ this

/-- With no morph targets, `morphVert` is the identity whatever the
morph list is. -/
theorem morphVert_clear (p : Primitive) (morphs : Option (List Morph))
    (iface ivert : Nat) (v : Vec3) :
    morphVert p.clearTargets morphs iface ivert v = v := by
  unfold morphVert
  cases morphs with
  | none => rfl
  | some ms => simp [Primitive.clearTargets, Primitive.numTargets]

theorem morphNormal_clear (p : Primitive) (morphs : Option (List Morph))
    (iface ivert : Nat) (v : Vec3) :
    morphNormal p.clearTargets morphs iface ivert v = v := by
  unfold morphNormal
  cases morphs with
  | none => rfl
  | some ms => simp [Primitive.clearTargets, Primitive.numTargets]

theorem morphTangent_clear (p : Primitive) (morphs : Option (List Morph))
    (iface ivert : Nat) (v : Vec4) :
    morphTangent p.clearTargets morphs iface ivert v = v := by
  unfold morphTangent
  cases morphs with
  | none => rfl
  | some ms => simp [Primitive.clearTargets, Primitive.numTargets]

/-- C8: when every morph weight is 0, `DefaultShader::vertex` — the
morph accumulation followed by skinning and projection — produces
exactly the same screen position and the same varyings as the same
primitive with no morph targets at all (so rasterizing it draws the
identical image). -/
theorem C8_zero_morph_weights (ctx : ShaderContext) (prim : Primitive)
    (jm : Option (List Mat4)) (bm : Option Mat4) (morphs : Option (List Morph))
    (fbW fbH iface ivert : Nat) (vy : DSVary)
    (h : ∀ ms, morphs = some ms → ∀ m ∈ ms, m.weight = 0) :
    DefaultShader.vertex ctx prim jm bm morphs fbW fbH iface ivert vy =
    DefaultShader.vertex ctx prim.clearTargets jm bm morphs fbW fbH iface ivert vy := by
  unfold DefaultShader.vertex
  rw [morphVert_zero prim morphs h, morphVert_clear prim morphs,
      morphNormal_zero prim morphs h, morphNormal_clear prim morphs,
      morphTangent_zero prim morphs h, morphTangent_clear prim morphs]
  rfl

/-- C8 witness: a concrete one-triangle primitive with one morph target
and morph weight 0 projects identically to the same primitive without
targets. -/
theorem C8_zero_morph_weights_witness :
    (∀ ms, (some [(⟨"t", 0⟩ : Morph)] : Option (List Morph)) = some ms →
      ∀ m ∈ ms, m.weight = 0) ∧
    DefaultShader.vertex
      ⟨Mat4.id, Mat4.id, Mat4.zero, Mat4.id, Camera.init, none, Color.init, 4/5⟩
      ⟨none, [⟨0,0,0⟩, ⟨1,0,0⟩, ⟨0,1,0⟩], [], [], [], [], [], [], [0,1,2],
        [⟨"t", [⟨1,1,1⟩, ⟨1,1,1⟩, ⟨1,1,1⟩], [], []⟩], ⟨0,0,0⟩, ⟨0,0,0⟩, ⟨0,0,0⟩⟩
      none (some Mat4.id) (some [⟨"t", 0⟩]) 4 4 0 0
      ⟨Mat3.zero, Mat3.zero, Mat3.zero, Mat3.zero, Mat3x2.zero⟩ =
    DefaultShader.vertex
      ⟨Mat4.id, Mat4.id, Mat4.zero, Mat4.id, Camera.init, none, Color.init, 4/5⟩
      (Primitive.clearTargets
        ⟨none, [⟨0,0,0⟩, ⟨1,0,0⟩, ⟨0,1,0⟩], [], [], [], [], [], [], [0,1,2],
          [⟨"t", [⟨1,1,1⟩, ⟨1,1,1⟩, ⟨1,1,1⟩], [], []⟩], ⟨0,0,0⟩, ⟨0,0,0⟩, ⟨0,0,0⟩⟩)
      none (some Mat4.id) (some [⟨"t", 0⟩]) 4 4 0 0
      ⟨Mat3.zero, Mat3.zero, Mat3.zero, Mat3.zero, Mat3x2.zero⟩ := by
  have h : ∀ ms, (some [(⟨"t", 0⟩ : Morph)] : Option (List Morph)) = some ms →
      ∀ m ∈ ms, m.weight = 0 := by
    intro ms hms m hm
    cases hms
    cases hm with
    | head => rfl
    | tail _ h2 => cases h2
  exact ⟨h, C8_zero_morph_weights _ _ _ _ _ _ _ _ _ _ h⟩

/-! ## C3: the per-pixel step of drawBB -/

/-- `shader->fragment` never writes the z-buffer or the framebuffer;
only `drawBB` itself does. -/
theorem shaderFragment_buffers (rf : RealFns) (ctx : ShaderContext) (st : ShaderObj)
    (bar p : Vec3) (bf : Bool) (c0 : Color) (d : Bool) (c : Color) (st' : ShaderObj)
    (h : shaderFragment rf ctx st bar p bf c0 = some (d, c, st')) :
    st'.zbuffer = st.zbuffer ∧ st'.framebuffer = st.framebuffer := by
  unfold shaderFragment at h
  cases hp : st.primitive with
  | none => simp only [hp] at h; exact Option.noConfusion h
  | some prim =>
    simp only [hp] at h
    cases hk : st.kind with
    | standard =>
      simp only [hk] at h
      cases hf : DefaultShader.fragment rf ctx prim st.dsv st.framebuffer bar p bf c0 with
      | none => simp only [hf] at h; exact Option.noConfusion h
      | some dc =>
        simp only [hf, Option.some.injEq, Prod.mk.injEq] at h
        rcases h with ⟨-, -, h3⟩
        rw [← h3]
        exact ⟨rfl, rfl⟩
    | outline =>
      simp only [hk, Option.some.injEq, Prod.mk.injEq] at h
      rcases h with ⟨-, -, h3⟩
      rw [← h3]
      exact ⟨rfl, rfl⟩

theorem C3aux_nocover (rf : RealFns) (ctx : ShaderContext) (t0 t1 t2 depths : Vec3)
    (st : ShaderObj) (x y : Nat)
    (hcov : ¬((barycentric t0 t1 t2 ⟨(x : ℚ), (y : ℚ), 1⟩).x ≥ 0 ∧
      (barycentric t0 t1 t2 ⟨(x : ℚ), (y : ℚ), 1⟩).y ≥ 0 ∧
      (barycentric t0 t1 t2 ⟨(x : ℚ), (y : ℚ), 1⟩).z ≥ 0)) :
    drawPixel rf ctx t0 t1 t2 depths st (x, y) = some st := by
  simp only [drawPixel]
  rw [if_neg hcov]

theorem C3aux_nodepth (rf : RealFns) (ctx : ShaderContext) (t0 t1 t2 depths : Vec3)
    (st : ShaderObj) (x y : Nat)
    (hfail : ¬(inBounds (x : Int) (y : Int) (st.framebuffer.width : Int)
        (st.framebuffer.height : Int) = true ∧
      Vec3.dot (barycentric t0 t1 t2 ⟨(x : ℚ), (y : ℚ), 1⟩) depths >
        st.zbuffer.getD (x + y * st.framebuffer.width) 0)) :
    drawPixel rf ctx t0 t1 t2 depths st (x, y) = some st := by
  simp only [drawPixel]
  by_cases hcov : (barycentric t0 t1 t2 ⟨(x : ℚ), (y : ℚ), 1⟩).x ≥ 0 ∧
      (barycentric t0 t1 t2 ⟨(x : ℚ), (y : ℚ), 1⟩).y ≥ 0 ∧
      (barycentric t0 t1 t2 ⟨(x : ℚ), (y : ℚ), 1⟩).z ≥ 0
  · rw [if_pos hcov, if_neg hfail]
  · rw [if_neg hcov]

theorem C3aux_discard (rf : RealFns) (ctx : ShaderContext) (t0 t1 t2 depths : Vec3)
    (st : ShaderObj) (x y : Nat) (c : Color) (st' : ShaderObj)
    (hfrag : shaderFragment rf ctx st (barycentric t0 t1 t2 ⟨(x : ℚ), (y : ℚ), 1⟩)
      ⟨(x : ℚ), (y : ℚ), 1⟩ (backfacing t0 t1 t2) ⟨0, 0, 0, 0⟩ = some (true, c, st')) :
    drawPixel rf ctx t0 t1 t2 depths st (x, y) = some st ∨
    drawPixel rf ctx t0 t1 t2 depths st (x, y) = some st' ∧
      st'.zbuffer = st.zbuffer ∧ st'.framebuffer = st.framebuffer := by
  have hb := shaderFragment_buffers rf ctx st _ _ _ _ _ _ _ hfrag
  simp only [drawPixel]
  split
  · split
    · rw [hfrag]
      exact Or.inr ⟨rfl, hb⟩
    · exact Or.inl rfl
  · exact Or.inl rfl

theorem C3aux_write (rf : RealFns) (ctx : ShaderContext) (t0 t1 t2 depths : Vec3)
    (st : ShaderObj) (x y : Nat) (c : Color) (st' : ShaderObj)
    (hcov : (barycentric t0 t1 t2 ⟨(x : ℚ), (y : ℚ), 1⟩).x ≥ 0 ∧
      (barycentric t0 t1 t2 ⟨(x : ℚ), (y : ℚ), 1⟩).y ≥ 0 ∧
      (barycentric t0 t1 t2 ⟨(x : ℚ), (y : ℚ), 1⟩).z ≥ 0)
    (hpass : inBounds (x : Int) (y : Int) (st.framebuffer.width : Int)
        (st.framebuffer.height : Int) = true ∧
      Vec3.dot (barycentric t0 t1 t2 ⟨(x : ℚ), (y : ℚ), 1⟩) depths >
        st.zbuffer.getD (x + y * st.framebuffer.width) 0)
    (hfrag : shaderFragment rf ctx st (barycentric t0 t1 t2 ⟨(x : ℚ), (y : ℚ), 1⟩)
      ⟨(x : ℚ), (y : ℚ), 1⟩ (backfacing t0 t1 t2) ⟨0, 0, 0, 0⟩ = some (false, c, st')) :
    drawPixel rf ctx t0 t1 t2 depths st (x, y) =
      some { st' with
             zbuffer := st.zbuffer.set (x + y * st.framebuffer.width)
               (Vec3.dot (barycentric t0 t1 t2 ⟨(x : ℚ), (y : ℚ), 1⟩) depths)
             framebuffer := st.framebuffer.set x y c } := by
  have hb := shaderFragment_buffers rf ctx st _ _ _ _ _ _ _ hfrag
  simp only [drawPixel]
  rw [if_pos hcov, if_pos hpass, hfrag]
  simp only [Bool.false_eq_true, if_false, hb.1, hb.2]

/-- C3: the per-pixel step of the rasterizer.  At a pixel (x, y): nothing
is written unless all three barycentric coordinates are ≥ 0, the pixel is
in bounds and `frag_depth = dot(barycentric, depths)` exceeds
`zbuffer[x+y·w]`; if the fragment shader discards, z-buffer and
framebuffer stay unchanged; otherwise `zbuffer[x+y·w]` becomes
`frag_depth` and the framebuffer pixel the fragment's color. -/
theorem C3_drawPixel_step (rf : RealFns) (ctx : ShaderContext) (t0 t1 t2 depths : Vec3)
    (st : ShaderObj) (x y : Nat) :
    (¬((barycentric t0 t1 t2 ⟨(x : ℚ), (y : ℚ), 1⟩).x ≥ 0 ∧
        (barycentric t0 t1 t2 ⟨(x : ℚ), (y : ℚ), 1⟩).y ≥ 0 ∧
        (barycentric t0 t1 t2 ⟨(x : ℚ), (y : ℚ), 1⟩).z ≥ 0) →
      drawPixel rf ctx t0 t1 t2 depths st (x, y) = some st) ∧
    (¬(inBounds (x : Int) (y : Int) (st.framebuffer.width : Int)
          (st.framebuffer.height : Int) = true ∧
        Vec3.dot (barycentric t0 t1 t2 ⟨(x : ℚ), (y : ℚ), 1⟩) depths >
          st.zbuffer.getD (x + y * st.framebuffer.width) 0) →
      drawPixel rf ctx t0 t1 t2 depths st (x, y) = some st) ∧
    (∀ (c : Color) (st' : ShaderObj),
      shaderFragment rf ctx st (barycentric t0 t1 t2 ⟨(x : ℚ), (y : ℚ), 1⟩)
          ⟨(x : ℚ), (y : ℚ), 1⟩ (backfacing t0 t1 t2) ⟨0, 0, 0, 0⟩ = some (true, c, st') →
      drawPixel rf ctx t0 t1 t2 depths st (x, y) = some st ∨
      drawPixel rf ctx t0 t1 t2 depths st (x, y) = some st' ∧
        st'.zbuffer = st.zbuffer ∧ st'.framebuffer = st.framebuffer) ∧
    (∀ (c : Color) (st' : ShaderObj),
      ((barycentric t0 t1 t2 ⟨(x : ℚ), (y : ℚ), 1⟩).x ≥ 0 ∧
        (barycentric t0 t1 t2 ⟨(x : ℚ), (y : ℚ), 1⟩).y ≥ 0 ∧
        (barycentric t0 t1 t2 ⟨(x : ℚ), (y : ℚ), 1⟩).z ≥ 0) →
      (inBounds (x : Int) (y : Int) (st.framebuffer.width : Int)
          (st.framebuffer.height : Int) = true ∧
        Vec3.dot (barycentric t0 t1 t2 ⟨(x : ℚ), (y : ℚ), 1⟩) depths >
          st.zbuffer.getD (x + y * st.framebuffer.width) 0) →
      shaderFragment rf ctx st (barycentric t0 t1 t2 ⟨(x : ℚ), (y : ℚ), 1⟩)
          ⟨(x : ℚ), (y : ℚ), 1⟩ (backfacing t0 t1 t2) ⟨0, 0, 0, 0⟩ = some (false, c, st') →
      drawPixel rf ctx t0 t1 t2 depths st (x, y) =
        some { st' with
               zbuffer := st.zbuffer.set (x + y * st.framebuffer.width)
                 (Vec3.dot (barycentric t0 t1 t2 ⟨(x : ℚ), (y : ℚ), 1⟩) depths)
               framebuffer := st.framebuffer.set x y c }) :=
  ⟨C3aux_nocover rf ctx t0 t1 t2 depths st x y,
   C3aux_nodepth rf ctx t0 t1 t2 depths st x y,
   fun c st' hf => C3aux_discard rf ctx t0 t1 t2 depths st x y c st' hf,
   fun c st' hcov hpass hf => C3aux_write rf ctx t0 t1 t2 depths st x y c st' hcov hpass hf⟩

/-- Concrete context for the C3 witness. -/
def c3wCtx : ShaderContext :=
  ⟨Mat4.id, Mat4.id, Mat4.zero, Mat4.id, Camera.init, none, Color.init, 4/5⟩

/-- Concrete outline-pass shader state for the C3 witness: 4×4
framebuffer, fresh z-buffer, material-less primitive. -/
def c3wSt : ShaderObj :=
  ⟨ShaderKind.outline, ⟨4, 4, Format.RGBA, List.replicate 64 0⟩, List.replicate 16 floatMin,
   some ⟨none, [], [], [], [], [], [], [], [], [], ⟨0,0,0⟩, ⟨0,0,0⟩, ⟨0,0,0⟩⟩,
   none, some Mat4.id, none,
   ⟨Mat3.zero, Mat3.zero, Mat3.zero, Mat3.zero, Mat3x2.zero⟩,
   ⟨Mat3.zero, Mat3x2.zero⟩, ⟨0, 0, 0, 178⟩, 1/10⟩

/-- C3 witness: at pixel (0,0) of a front-facing triangle, the outline
shader discards, and the per-pixel step leaves the state unchanged. -/
theorem C3_drawPixel_step_witness :
    shaderFragment ⟨id, id⟩ c3wCtx c3wSt
      (barycentric ⟨0,0,1/2⟩ ⟨0,2,1/2⟩ ⟨2,0,1/2⟩ ⟨((0:Nat) : ℚ), ((0:Nat) : ℚ), 1⟩)
      ⟨((0:Nat) : ℚ), ((0:Nat) : ℚ), 1⟩ (backfacing ⟨0,0,1/2⟩ ⟨0,2,1/2⟩ ⟨2,0,1/2⟩)
      ⟨0, 0, 0, 0⟩ = some (true, ⟨0, 0, 0, 0⟩, c3wSt) ∧
    (drawPixel ⟨id, id⟩ c3wCtx ⟨0,0,1/2⟩ ⟨0,2,1/2⟩ ⟨2,0,1/2⟩ ⟨1/2,1/2,1/2⟩ c3wSt (0, 0) =
        some c3wSt ∨
      drawPixel ⟨id, id⟩ c3wCtx ⟨0,0,1/2⟩ ⟨0,2,1/2⟩ ⟨2,0,1/2⟩ ⟨1/2,1/2,1/2⟩ c3wSt (0, 0) =
          some c3wSt ∧
        c3wSt.zbuffer = c3wSt.zbuffer ∧ c3wSt.framebuffer = c3wSt.framebuffer) := by
  have hbf : backfacing ⟨0,0,(1:ℚ)/2⟩ ⟨0,2,1/2⟩ ⟨2,0,1/2⟩ = false := by
    simp only [backfacing]
    norm_num
  have hfrag : shaderFragment ⟨id, id⟩ c3wCtx c3wSt
      (barycentric ⟨0,0,1/2⟩ ⟨0,2,1/2⟩ ⟨2,0,1/2⟩ ⟨((0:Nat) : ℚ), ((0:Nat) : ℚ), 1⟩)
      ⟨((0:Nat) : ℚ), ((0:Nat) : ℚ), 1⟩ (backfacing ⟨0,0,1/2⟩ ⟨0,2,1/2⟩ ⟨2,0,1/2⟩)
      ⟨0, 0, 0, 0⟩ = some (true, ⟨0, 0, 0, 0⟩, c3wSt) := by
    rw [hbf]
    rfl
  exact ⟨hfrag,
    (C3_drawPixel_step ⟨id, id⟩ c3wCtx ⟨0,0,1/2⟩ ⟨0,2,1/2⟩ ⟨2,0,1/2⟩ ⟨1/2,1/2,1/2⟩
      c3wSt 0 0).2.2.1 ⟨0, 0, 0, 0⟩ c3wSt hfrag⟩

/-! ## C4: render queues and the z-sort -/

/-- The guarantee `std::sort(ops, comp)` gives with
`comp a b = a.primitive->center.z < b.primitive->center.z`: the result is
*some* permutation of the input that is sorted (non-strictly) by
`center.z`.  `std::sort` is not a stable sort, so nothing more is
guaranteed for ops with equal keys. -/
def StdSortOutcome (l l' : List RenderOp) : Prop :=
  l'.Perm l ∧ l'.Sorted (fun a b => a.primitive.center.z ≤ b.primitive.center.z)

/-- A material-less primitive with the given center, for C4. -/
def c4Prim (cx cz : ℚ) : Primitive :=
  ⟨none, [], [], [], [], [], [], [], [], [], ⟨cx, 0, cz⟩, ⟨0,0,0⟩, ⟨0,0,0⟩⟩

def c4OpA : RenderOp := ⟨Node.mk "a" none none [] Mat4.id true Mat4.id, c4Prim 0 5⟩

def c4OpB : RenderOp := ⟨Node.mk "b" none none [] Mat4.id true Mat4.id, c4Prim 1 5⟩

/-- C4 (counterexample): two render ops with equal `center.z` admit a
`std::sort` outcome that reverses their traversal order — the sort used
is `std::sort`, not a stable sort, so retention of insertion order for
equal keys is not guaranteed. -/
theorem C4_sort_not_stable :
    StdSortOutcome [c4OpA, c4OpB] [c4OpB, c4OpA] ∧
    [c4OpB, c4OpA] ≠ [c4OpA, c4OpB] := by
  refine ⟨⟨List.Perm.swap c4OpA c4OpB [], ?_⟩, ?_⟩
  · simp only [List.sorted_cons, List.mem_singleton, forall_eq, List.sorted_singleton,
      and_true, c4OpA, c4OpB, c4Prim]
    norm_num
  · intro h
    have h2 := congrArg (fun l => (l.headD c4OpA).primitive.center.x) h
    simp only [List.headD_cons, c4OpA, c4OpB, c4Prim] at h2
    norm_num at h2

/-- The render-queue invariant: every op sits in the bucket of its
queue key, and the bucket keys are strictly ascending (the `std::map`
iteration order). -/
def RQInv (rq : List (Nat × List RenderOp)) : Prop :=
  (∀ k ops, (k, ops) ∈ rq → ∀ op ∈ ops, queueKey op.primitive = k) ∧
  (rq.map Prod.fst).Sorted (· < ·)

theorem rqInsert_keys (k : Nat) (op : RenderOp) :
    ∀ (rq : List (Nat × List RenderOp)) (k' : Nat),
      k' ∈ (rqInsert k op rq).map Prod.fst → k' = k ∨ k' ∈ rq.map Prod.fst := by
  intro rq
  induction rq with
  | nil => intro k' h; simp only [rqInsert, List.map_cons, List.map_nil,
      List.mem_singleton] at h; exact Or.inl h
  | cons hd tl ih =>
    obtain ⟨khd, opshd⟩ := hd
    intro k' h
    simp only [rqInsert] at h
    by_cases h1 : k = khd
    · rw [if_pos h1] at h
      simp only [List.map_cons, List.mem_cons] at h
      rcases h with h | h
      · exact Or.inr (by simp [h])
      · exact Or.inr (by simp [h])
    · rw [if_neg h1] at h
      by_cases h2 : k < khd
      · rw [if_pos h2] at h
        simp only [List.map_cons, List.mem_cons] at h
        rcases h with h | h | h
        · exact Or.inl h
        · exact Or.inr (by simp [h])
        · exact Or.inr (by simp [h])
      · rw [if_neg h2] at h
        simp only [List.map_cons, List.mem_cons] at h
        rcases h with h | h
        · exact Or.inr (by simp [h])
        · rcases ih k' h with h3 | h3
          · exact Or.inl h3
          · exact Or.inr (List.mem_cons_of_mem _ h3)

theorem rqInsert_inv (k : Nat) (op : RenderOp) (hop : queueKey op.primitive = k) :
    ∀ (rq : List (Nat × List RenderOp)), RQInv rq → RQInv (rqInsert k op rq) := by
  intro rq
  induction rq with
  | nil =>
    intro _
    constructor
    · intro k1 ops1 hmem op' hop'
      simp only [rqInsert, List.mem_singleton, Prod.mk.injEq] at hmem
      obtain ⟨hk1, hops1⟩ := hmem
      subst hk1
      subst hops1
      simp only [List.mem_singleton] at hop'
      subst hop'
      exact hop
    · simp [rqInsert]
  | cons hd tl ih =>
    obtain ⟨khd, opshd⟩ := hd
    intro h
    obtain ⟨hbucket, hsorted⟩ := h
    have hsorted' : (khd :: tl.map Prod.fst).Sorted (· < ·) := by
      simpa using hsorted
    obtain ⟨hhead, htailsorted⟩ := List.sorted_cons.mp hsorted'
    have htl : RQInv tl :=
      ⟨fun k1 ops1 hm => hbucket k1 ops1 (List.mem_cons_of_mem _ hm), htailsorted⟩
    by_cases h1 : k = khd
    · constructor
      · intro k1 ops1 hmem op' hop'
        simp only [rqInsert, if_pos h1, List.mem_cons, Prod.mk.injEq] at hmem
        rcases hmem with ⟨hk1, hops1⟩ | hmem
        · rw [hops1] at hop'
          rw [hk1]
          simp only [List.mem_append, List.mem_singleton] at hop'
          rcases hop' with hop' | hop'
          · exact hbucket khd opshd (List.mem_cons_self _ _) op' hop'
          · subst hop'
            rw [hop, h1]
        · exact hbucket k1 ops1 (List.mem_cons_of_mem _ hmem) op' hop'
      · show ((rqInsert k op ((khd, opshd) :: tl)).map Prod.fst).Sorted (· < ·)
        simp only [rqInsert, if_pos h1, List.map_cons]
        simpa using hsorted
    · by_cases h2 : k < khd
      · constructor
        · intro k1 ops1 hmem op' hop'
          simp only [rqInsert, if_neg h1, if_pos h2, List.mem_cons, Prod.mk.injEq] at hmem
          rcases hmem with ⟨hk1, hops1⟩ | ⟨hk1, hops1⟩ | hmem
          · rw [hops1] at hop'
            rw [hk1]
            simp only [List.mem_singleton] at hop'
            subst hop'
            exact hop
          · rw [hops1] at hop'
            rw [hk1]
            exact hbucket khd opshd (List.mem_cons_self _ _) op' hop'
          · exact hbucket k1 ops1 (List.mem_cons_of_mem _ hmem) op' hop'
        · show ((rqInsert k op ((khd, opshd) :: tl)).map Prod.fst).Sorted (· < ·)
          simp only [rqInsert, if_neg h1, if_pos h2, List.map_cons]
          rw [List.sorted_cons]
          constructor
          · intro b hb
            simp only [List.mem_cons] at hb
            rcases hb with hb | hb
            · subst hb
              exact h2
            · exact lt_trans h2 (hhead b hb)
          · exact hsorted'
      · obtain ⟨ihb, ihs⟩ := ih htl
        constructor
        · intro k1 ops1 hmem op' hop'
          simp only [rqInsert, if_neg h1, if_neg h2, List.mem_cons, Prod.mk.injEq] at hmem
          rcases hmem with ⟨hk1, hops1⟩ | hmem
          · rw [hops1] at hop'
            rw [hk1]
            exact hbucket khd opshd (List.mem_cons_self _ _) op' hop'
          · exact ihb k1 ops1 hmem op' hop'
        · show ((rqInsert k op ((khd, opshd) :: tl)).map Prod.fst).Sorted (· < ·)
          simp only [rqInsert, if_neg h1, if_neg h2, List.map_cons]
          rw [List.sorted_cons]
          refine ⟨?_, ihs⟩
          intro b hb
          rcases rqInsert_keys k op tl b hb with hb2 | hb2
          · subst hb2
            exact lt_of_le_of_ne (le_of_not_lt h2) (fun he => h1 he.symm)
          · exact hhead b hb2

theorem queuePrims_inv (node : Node) (prims : List Primitive)
    (rq : List (Nat × List RenderOp)) (h : RQInv rq) :
    RQInv (prims.foldl (fun rq prim => rqInsert (queueKey prim) ⟨node, prim⟩ rq) rq) := by
  induction prims generalizing rq with
  | nil => exact h
  | cons p rest ih =>
    rw [List.foldl_cons]
    exact ih _ (rqInsert_inv (queueKey p) ⟨node, p⟩ rfl rq h)

mutual

theorem queueNode_inv (node : Node) (rq : List (Nat × List RenderOp))
    (h : RQInv rq) : RQInv (queueNode node rq) :=
  match node with
  | .mk name mesh skin children mat visible bindMat => by
    rw [queueNode.eq_def]
    cases mesh with
    | none => exact queueList_inv children rq h
    | some m =>
      exact queueList_inv children _
        (queuePrims_inv (Node.mk name (some m) skin children mat visible bindMat)
          m.primitives rq h)

theorem queueList_inv (nodes : List Node) (rq : List (Nat × List RenderOp))
    (h : RQInv rq) : RQInv (queueList nodes rq) :=
  match nodes with
  | [] => by rw [queueList.eq_def]; exact h
  | n :: rest => by
    rw [queueList.eq_def]
    exact queueList_inv rest _ (queueNode_inv n rq h)

end

/-- C4 (amended): traversal places each primitive into the queue keyed by
its material's VRM0 renderQueue value (0 when material or VRM0 block is
absent); the queue keys are iterated in strictly ascending order; and
within each queue the ops are z-sorted ascending by `primitive.center.z`
before drawing — any `std::sort`-consistent outcome is a sorted
permutation; the relative order of ops with equal `center.z` is not
specified. -/
theorem C4_queue_structure (nodes : List Node) (k : Nat) (ops : List RenderOp)
    (hmem : (k, ops) ∈ queueList nodes []) :
    (∀ op ∈ ops, queueKey op.primitive = k) ∧
    ((queueList nodes []).map Prod.fst).Sorted (· < ·) ∧
    (∀ l l' : List RenderOp, StdSortOutcome l l' →
      l'.Perm l ∧ l'.Sorted (fun a b => a.primitive.center.z ≤ b.primitive.center.z)) := by
  have h := queueList_inv nodes [] ⟨by simp, by simp⟩
  exact ⟨fun op hop => h.1 k ops hmem op hop, h.2, fun l l' hs => hs⟩

/-- A material whose VRM0 block sets renderQueue = 7, for the C4 witness. -/
def c4MatW : Material :=
  ⟨⟨0,0,0,0⟩, ⟨0,0,0,0⟩, ⟨0,0,0⟩, none, none, none, AlphaMode.Opaque, 0, 1, 1, 0,
   false, false, some ⟨7, 0, 0, 1, ⟨0,0,0,255⟩, none, false, false, false, false⟩⟩

def c4PrimQ7 : Primitive :=
  ⟨some c4MatW, [], [], [], [], [], [], [], [], [], ⟨0,0,0⟩, ⟨0,0,0⟩, ⟨0,0,0⟩⟩

def c4MeshW : Mesh := ⟨"m", [c4PrimQ7, c4Prim 0 0], [], ⟨0,0,0⟩, ⟨0,0,0⟩, ⟨0,0,0⟩⟩

def c4NodeW : Node := Node.mk "n" (some c4MeshW) none [] Mat4.id true Mat4.id

/-- C4 witness: one node with a renderQueue-7 primitive and a
material-less primitive produces buckets keyed 0 and 7, in that order. -/
theorem C4_queue_structure_witness :
    ((7 : Nat), [(⟨c4NodeW, c4PrimQ7⟩ : RenderOp)]) ∈ queueList [c4NodeW] [] ∧
    ((∀ op ∈ [(⟨c4NodeW, c4PrimQ7⟩ : RenderOp)], queueKey op.primitive = 7) ∧
     ((queueList [c4NodeW] []).map Prod.fst).Sorted (· < ·) ∧
     (∀ l l' : List RenderOp, StdSortOutcome l l' →
       l'.Perm l ∧ l'.Sorted (fun a b => a.primitive.center.z ≤ b.primitive.center.z))) := by
  have he : queueList [c4NodeW] [] =
      [(0, [(⟨c4NodeW, c4Prim 0 0⟩ : RenderOp)]),
       (7, [(⟨c4NodeW, c4PrimQ7⟩ : RenderOp)])] := by
    simp [queueList.eq_def, queueNode.eq_def, c4NodeW, c4MeshW, rqInsert, queueKey,
      c4PrimQ7, c4MatW, c4Prim]
  have hmem : ((7 : Nat), [(⟨c4NodeW, c4PrimQ7⟩ : RenderOp)]) ∈ queueList [c4NodeW] [] := by
    rw [he]
    exact List.mem_cons_of_mem _ (List.mem_cons_self _ _)
  exact ⟨hmem, C4_queue_structure [c4NodeW] 7 [⟨c4NodeW, c4PrimQ7⟩] hmem⟩

/-! ## C5: Image::fill -/

theorem getD_set_ne (l : List Nat) (i j a d : Nat) (h : i ≠ j) :
    (l.set i a).getD j d = l.getD j d := by
  simp [List.getD_eq_getElem?_getD, List.getElem?_set_ne h]

theorem getD_set_self (l : List Nat) (j a d : Nat) (h : j < l.length) :
    (l.set j a).getD j d = a := by
  simp [List.getD_eq_getElem?_getD, List.getElem?_set_eq_of_lt a h]

theorem writeBytes_getD_lt (src : List Nat) (data : List Nat) (off j : Nat)
    (h : j < off) : (writeBytes data off src).getD j 0 = data.getD j 0 := by
  induction src generalizing data off with
  | nil => rfl
  | cons b rest ih =>
    rw [writeBytes, ih (data.set off b) (off + 1) (Nat.lt_succ_of_lt h)]
    exact getD_set_ne _ _ _ _ _ (Nat.ne_of_gt h)

theorem writeBytes_getD_ge (src : List Nat) (data : List Nat) (off j : Nat)
    (h : off + src.length ≤ j) : (writeBytes data off src).getD j 0 = data.getD j 0 := by
  induction src generalizing data off with
  | nil => rfl
  | cons b rest ih =>
    rw [writeBytes, ih (data.set off b) (off + 1) (by simp at h; omega)]
    exact getD_set_ne _ _ _ _ _ (by simp at h; omega)

theorem writeBytes_getD_in (src : List Nat) (data : List Nat) (off j : Nat)
    (h1 : off ≤ j) (h2 : j < off + src.length) (h3 : j < data.length) :
    (writeBytes data off src).getD j 0 = src.getD (j - off) 0 := by
  induction src generalizing data off with
  | nil => simp at h2; omega
  | cons b rest ih =>
    rw [writeBytes]
    rcases Nat.eq_or_lt_of_le h1 with he | hlt
    · rw [writeBytes_getD_lt rest _ _ _ (by omega)]
      rw [← he, getD_set_self _ _ _ _ (by omega)]
      simp
    · have hlen : (data.set off b).length = data.length := by simp
      rw [ih (data.set off b) (off + 1) hlt (by simp at h2 ⊢; omega) (by rw [hlen]; omega)]
      · have hs : j - off = (j - (off + 1)) + 1 := by omega
        rw [hs]
        rfl

theorem bytes_length (c : Color) (fmt : Format) : (c.bytes fmt).length = fmt.toNat := by
  cases fmt <;> rfl

theorem fillPixel_length (fmt : Format) (cb : List Nat) (w : Nat) (data : List Nat)
    (xy : Nat × Nat) : (fillPixel fmt cb w data xy).length = data.length := by
  simp only [fillPixel]
  split
  · rfl
  · exact writeBytes_length _ _ _

theorem fillPixel_getD_outside (fmt : Format) (cb : List Nat) (w : Nat)
    (data : List Nat) (xy : Nat × Nat) (j : Nat) (hcb : cb.length ≤ fmt.toNat)
    (h : j < (xy.1 + xy.2 * w) * fmt.toNat ∨
      (xy.1 + xy.2 * w) * fmt.toNat + fmt.toNat ≤ j) :
    (fillPixel fmt cb w data xy).getD j 0 = data.getD j 0 := by
  simp only [fillPixel]
  split
  · rfl
  · rcases h with h | h
    · exact writeBytes_getD_lt _ _ _ _ h
    · exact writeBytes_getD_ge _ _ _ _ (by omega)

theorem foldl_fillPixel_length (fmt : Format) (cb : List Nat) (w : Nat)
    (ps : List (Nat × Nat)) (data : List Nat) :
    (ps.foldl (fillPixel fmt cb w) data).length = data.length := by
  induction ps generalizing data with
  | nil => rfl
  | cons q rest ih => rw [List.foldl_cons, ih, fillPixel_length]

theorem foldl_fillPixel_outside (fmt : Format) (cb : List Nat) (w : Nat)
    (ps : List (Nat × Nat)) (pi : Nat) (hcb : cb.length ≤ fmt.toNat)
    (hps : ∀ q ∈ ps, q.1 + q.2 * w ≠ pi) (data : List Nat) (j : Nat)
    (hj1 : pi * fmt.toNat ≤ j) (hj2 : j < pi * fmt.toNat + fmt.toNat) :
    (ps.foldl (fillPixel fmt cb w) data).getD j 0 = data.getD j 0 := by
  induction ps generalizing data with
  | nil => rfl
  | cons q rest ih =>
    rw [List.foldl_cons, ih (fun q' hq' => hps q' (List.mem_cons_of_mem _ hq'))]
    apply fillPixel_getD_outside fmt cb w data q j hcb
    have hne : q.1 + q.2 * w ≠ pi := hps q (List.mem_cons_self _ _)
    rcases Nat.lt_or_ge (q.1 + q.2 * w) pi with hlt | hge
    · right
      have hstep : (q.1 + q.2 * w + 1) * fmt.toNat ≤ pi * fmt.toNat :=
        Nat.mul_le_mul_right _ (Nat.succ_le_of_lt hlt)
      rw [Nat.succ_mul] at hstep
      omega
    · left
      have hgt : pi < q.1 + q.2 * w := lt_of_le_of_ne hge (fun he => hne he.symm)
      have hstep : (pi + 1) * fmt.toNat ≤ (q.1 + q.2 * w) * fmt.toNat :=
        Nat.mul_le_mul_right _ (Nat.succ_le_of_lt hgt)
      rw [Nat.succ_mul] at hstep
      omega

theorem mem_pixelList (w h x y : Nat) : (x, y) ∈ pixelList w h ↔ x < w ∧ y < h := by
  simp only [pixelList, List.mem_flatMap, List.mem_map, List.mem_range, Prod.mk.injEq]
  constructor
  · rintro ⟨x', hx', y', hy', rfl, rfl⟩
    exact ⟨hx', hy'⟩
  · rintro ⟨hx, hy⟩
    exact ⟨x, hx, y, hy, rfl, rfl⟩

theorem nodup_pixelList (w h : Nat) : (pixelList w h).Nodup := by
  unfold pixelList
  rw [List.nodup_flatMap]
  constructor
  · intro x _
    refine List.Nodup.map ?_ (List.nodup_range h)
    intro a b hab
    injection hab
  · refine List.Pairwise.imp ?_ (List.nodup_range w)
    intro a b hab p hp1 hp2
    simp only [List.mem_map, List.mem_range] at hp1 hp2
    obtain ⟨y1, _, he1⟩ := hp1
    obtain ⟨y2, _, he2⟩ := hp2
    rw [← he1] at he2
    injection he2 with hfst _
    exact hab hfst.symm

/-- Distinct in-range pixels have distinct linear indices. -/
theorem pixIdx_inj (w : Nat) (a b : Nat × Nat) (ha : a.1 < w) (hb : b.1 < w)
    (hne : a ≠ b) : a.1 + a.2 * w ≠ b.1 + b.2 * w := by
  intro he
  apply hne
  have h2 : a.2 = b.2 := by
    rcases lt_trichotomy a.2 b.2 with hlt | heq | hgt
    · exfalso
      have hs : (a.2 + 1) * w ≤ b.2 * w := Nat.mul_le_mul_right _ (Nat.succ_le_of_lt hlt)
      rw [Nat.succ_mul] at hs
      omega
    · exact heq
    · exfalso
      have hs : (b.2 + 1) * w ≤ a.2 * w := Nat.mul_le_mul_right _ (Nat.succ_le_of_lt hgt)
      rw [Nat.succ_mul] at hs
      omega
  have h1 : a.1 = b.1 := by rw [h2] at he; omega
  exact Prod.ext h1 h2

theorem readBytes_four (d : List Nat) (off : Nat) :
    readBytes d off 4 = [d.getD (off + 0) 0, d.getD (off + 1) 0,
      d.getD (off + 2) 0, d.getD (off + 3) 0] := rfl

theorem bytes_rgba (c : Color) : c.bytes Format.RGBA = [c.r, c.g, c.b, c.a] := rfl

/-- Reading an in-bounds pixel of a non-empty RGBA image gives its four
buffer bytes. -/
theorem get_rgba_bytes (w h : Nat) (data : List Nat) (x y : Nat) (hx : x < w)
    (hy : y < h) (hnz : data.length ≠ 0) :
    Image.get ⟨w, h, Format.RGBA, data⟩ x y =
      ⟨data.getD ((x + y * w) * 4 + 0) 0, data.getD ((x + y * w) * 4 + 1) 0,
       data.getD ((x + y * w) * 4 + 2) 0, data.getD ((x + y * w) * 4 + 3) 0⟩ := by
  simp only [Image.get]
  rw [if_neg]
  · rfl
  · simp only [not_or]
    refine ⟨hnz, by omega, by omega⟩

/-- C5 (amended): for an RGBA image with a well-formed buffer,
`Image::fill(C)` writes C into exactly those pixels whose alpha is
currently zero and leaves every other pixel unchanged; consequently
filling an all-transparent RGBA image with C makes every pixel equal C.
(For non-RGBA formats the alpha guard `format == RGBA && dst[3] != 0`
is skipped and fill overwrites every pixel — see the counterexample.) -/
theorem C5_fill_rgba (img : Image) (c : Color) (x y : Nat)
    (hlen : img.data.length = img.width * img.height * img.format.toNat)
    (hfmt : img.format = Format.RGBA) (hx : x < img.width) (hy : y < img.height) :
    Image.get (Image.fill img c) x y =
      (if (Image.get img x y).a = 0 then c else Image.get img x y) ∧
    ((∀ x' y', x' < img.width → y' < img.height → (Image.get img x' y').a = 0) →
      Image.get (Image.fill img c) x y = c) := by
  obtain ⟨w, h, fmt, data⟩ := img
  simp only at hlen hx hy
  simp only at hfmt
  subst hfmt
  have h4 : Format.RGBA.toNat = 4 := rfl
  rw [h4] at hlen
  -- pixel split of the traversal
  have hmem : (x, y) ∈ pixelList w h := (mem_pixelList w h x y).2 ⟨hx, hy⟩
  obtain ⟨l1, l2, hsplit⟩ := List.append_of_mem hmem
  have hnd : (pixelList w h).Nodup := nodup_pixelList w h
  rw [hsplit] at hnd
  have hnd2 : ((x, y) :: (l1 ++ l2)).Nodup := List.nodup_middle.mp hnd
  have hnotmem : (x, y) ∉ l1 ++ l2 := (List.nodup_cons.mp hnd2).1
  have hq_ne : ∀ q ∈ pixelList w h, q ≠ (x, y) → q.1 + q.2 * w ≠ x + y * w := by
    intro q hq hqne
    have hqw : q.1 < w := by
      have := (mem_pixelList w h q.1 q.2).1 (by simpa using hq)
      exact this.1
    exact pixIdx_inj w q (x, y) hqw (by simpa using hx) hqne
  have hne1 : ∀ q ∈ l1, q.1 + q.2 * w ≠ x + y * w := by
    intro q hq
    refine hq_ne q (by rw [hsplit]; exact List.mem_append_left _ hq) ?_
    intro he
    exact hnotmem (he ▸ List.mem_append_left _ hq)
  have hne2 : ∀ q ∈ l2, q.1 + q.2 * w ≠ x + y * w := by
    intro q hq
    refine hq_ne q ?_ ?_
    · rw [hsplit]
      exact List.mem_append_right _ (List.mem_cons_of_mem _ hq)
    · intro he
      exact hnotmem (he ▸ List.mem_append_right _ hq)
  have hcble : (c.bytes Format.RGBA).length ≤ Format.RGBA.toNat :=
    le_of_eq (bytes_length c Format.RGBA)
  have hpilt : x + y * w < w * h := by
    have hs : (y + 1) * w ≤ h * w := Nat.mul_le_mul_right _ (Nat.succ_le_of_lt hy)
    rw [Nat.succ_mul] at hs
    have hc : w * h = h * w := Nat.mul_comm w h
    omega
  -- byte-level characterization at the target pixel
  have hbyte : ∀ r : Nat, r < 4 →
      ((pixelList w h).foldl (fillPixel Format.RGBA (c.bytes Format.RGBA) w) data).getD
        ((x + y * w) * 4 + r) 0 =
      if data.getD ((x + y * w) * 4 + 3) 0 ≠ 0 then
        data.getD ((x + y * w) * 4 + r) 0
      else (c.bytes Format.RGBA).getD r 0 := by
    intro r hr
    have ha1 : (x + y * w) * 4 ≤ (x + y * w) * 4 + r := by omega
    have ha2 : (x + y * w) * 4 + r < (x + y * w) * 4 + 4 := by omega
    rw [hsplit, List.foldl_append, List.foldl_cons]
    rw [foldl_fillPixel_outside Format.RGBA (c.bytes Format.RGBA) w l2 (x + y * w)
      hcble hne2 _ ((x + y * w) * 4 + r) ha1 ha2]
    have hout1 : ∀ j, (x + y * w) * 4 ≤ j → j < (x + y * w) * 4 + 4 →
        (l1.foldl (fillPixel Format.RGBA (c.bytes Format.RGBA) w) data).getD j 0 =
        data.getD j 0 := by
      intro j hj1 hj2
      exact foldl_fillPixel_outside Format.RGBA (c.bytes Format.RGBA) w l1 (x + y * w)
        hcble hne1 data j hj1 hj2
    have hlen1 : (l1.foldl (fillPixel Format.RGBA (c.bytes Format.RGBA) w) data).length =
        data.length := foldl_fillPixel_length _ _ _ _ _
    simp only [fillPixel, h4]
    split
    · next hg =>
      rw [hout1 _ ha1 ha2]
      rw [hout1 _ (by omega) (by omega)] at hg
      rw [if_pos hg.2]
    · next hg =>
      have hg3 : data.getD ((x + y * w) * 4 + 3) 0 = 0 := by
        by_contra hnz
        exact hg ⟨trivial, by rwa [hout1 _ (by omega) (by omega)]⟩
      rw [if_neg (show ¬data.getD ((x + y * w) * 4 + 3) 0 ≠ 0 from fun hh => hh hg3)]
      have hup : ((x + y * w) + 1) * 4 ≤ (w * h) * 4 :=
        Nat.mul_le_mul_right _ (Nat.succ_le_of_lt hpilt)
      rw [Nat.succ_mul] at hup
      rw [writeBytes_getD_in _ _ _ _ ha1 (by rw [bytes_length, h4]; omega)
        (by rw [hlen1, hlen]; omega)]
      congr 1
      omega
  -- lift to pixels
  have hfill : Image.fill ⟨w, h, Format.RGBA, data⟩ c =
      ⟨w, h, Format.RGBA,
        (pixelList w h).foldl (fillPixel Format.RGBA (c.bytes Format.RGBA) w) data⟩ := rfl
  have hnz : data.length ≠ 0 := by
    rw [hlen]
    have : 1 * 1 * 1 ≤ w * h * 4 := by
      apply Nat.mul_le_mul
      apply Nat.mul_le_mul <;> omega
      omega
    omega
  have hfnz : ((pixelList w h).foldl
      (fillPixel Format.RGBA (c.bytes Format.RGBA) w) data).length ≠ 0 := by
    rw [foldl_fillPixel_length]
    exact hnz
  have hgetfill := get_rgba_bytes w h _ x y hx hy hfnz
  have hgetorig := get_rgba_bytes w h data x y hx hy hnz
  have hmain : Image.get (Image.fill ⟨w, h, Format.RGBA, data⟩ c) x y =
      (if (Image.get ⟨w, h, Format.RGBA, data⟩ x y).a = 0 then c
       else Image.get ⟨w, h, Format.RGBA, data⟩ x y) := by
    rw [hfill, hgetfill, hgetorig]
    rw [hbyte 0 (by omega), hbyte 1 (by omega), hbyte 2 (by omega), hbyte 3 (by omega)]
    by_cases hc3 : data[(x + y * w) * 4 + 3]?.getD 0 = 0
    · simp [hc3, bytes_rgba]
    · simp [hc3]
  refine ⟨hmain, ?_⟩
  intro hall
  rw [hmain, if_pos (hall x y hx hy)]

/-- C5 (counterexample): on a GRAYSCALE_ALPHA image, `fill`'s guard
`format == RGBA && dst[3] != 0` never fires, so a pixel whose alpha
channel (byte 1) is non-zero is overwritten anyway — the claim's "writes
into exactly those pixels whose alpha is currently zero" fails for
non-RGBA images. -/
theorem C5_fill_overwrites_nonrgba :
    Image.fill ⟨1, 1, Format.GRAYSCALE_ALPHA, [7, 5]⟩ ⟨1, 2, 3, 4⟩ =
      ⟨1, 1, Format.GRAYSCALE_ALPHA, [1, 2]⟩ ∧
    (Image.get ⟨1, 1, Format.GRAYSCALE_ALPHA, [7, 5]⟩ 0 0).a ≠ 0 ∧
    Image.fill ⟨1, 1, Format.GRAYSCALE_ALPHA, [7, 5]⟩ ⟨1, 2, 3, 4⟩ ≠
      ⟨1, 1, Format.GRAYSCALE_ALPHA, [7, 5]⟩ := by
  decide

/-- C5 witness: the amended theorem applied to a 2×1 RGBA image with one
painted and one transparent pixel. -/
theorem C5_fill_rgba_witness :
    ((⟨2, 1, Format.RGBA, [9, 9, 9, 9, 0, 0, 0, 0]⟩ : Image).data.length =
      2 * 1 * Format.RGBA.toNat ∧ (0 : Nat) < 2 ∧ (0 : Nat) < 1) ∧
    (Image.get (Image.fill ⟨2, 1, Format.RGBA, [9, 9, 9, 9, 0, 0, 0, 0]⟩ ⟨10, 20, 30, 40⟩) 0 0 =
      (if (Image.get ⟨2, 1, Format.RGBA, [9, 9, 9, 9, 0, 0, 0, 0]⟩ 0 0).a = 0 then
        (⟨10, 20, 30, 40⟩ : Color)
       else Image.get ⟨2, 1, Format.RGBA, [9, 9, 9, 9, 0, 0, 0, 0]⟩ 0 0) ∧
     ((∀ x' y', x' < (⟨2, 1, Format.RGBA, [9, 9, 9, 9, 0, 0, 0, 0]⟩ : Image).width →
        y' < (⟨2, 1, Format.RGBA, [9, 9, 9, 9, 0, 0, 0, 0]⟩ : Image).height →
        (Image.get ⟨2, 1, Format.RGBA, [9, 9, 9, 9, 0, 0, 0, 0]⟩ x' y').a = 0) →
      Image.get (Image.fill ⟨2, 1, Format.RGBA, [9, 9, 9, 9, 0, 0, 0, 0]⟩ ⟨10, 20, 30, 40⟩) 0 0 =
        ⟨10, 20, 30, 40⟩)) :=
  ⟨⟨by decide, by decide, by decide⟩,
   C5_fill_rgba ⟨2, 1, Format.RGBA, [9, 9, 9, 9, 0, 0, 0, 0]⟩ ⟨10, 20, 30, 40⟩ 0 0
     (by decide) rfl (by decide) (by decide)⟩

/-! ## C1: output image shape -/

/-- Two images with the same dimensions, format and buffer size. -/
def ShapeEq (a b : Image) : Prop :=
  a.width = b.width ∧ a.height = b.height ∧ a.format = b.format ∧
  a.data.length = b.data.length

theorem shapeEq_refl (a : Image) : ShapeEq a a := ⟨rfl, rfl, rfl, rfl⟩

theorem shapeEq_trans {a b c : Image} (h1 : ShapeEq a b) (h2 : ShapeEq b c) :
    ShapeEq a c :=
  ⟨h1.1.trans h2.1, h1.2.1.trans h2.2.1, h1.2.2.1.trans h2.2.2.1, h1.2.2.2.trans h2.2.2.2⟩

theorem set_shapeEq (img : Image) (x y : Nat) (c : Color) :
    ShapeEq (img.set x y c) img := by
  simp only [Image.set]
  split
  · exact shapeEq_refl _
  · exact ⟨rfl, rfl, rfl, writeBytes_length _ _ _⟩

theorem foldl_shapeEq {α : Type} (f : Image → α → Image)
    (hf : ∀ img a, ShapeEq (f img a) img) (l : List α) (img : Image) :
    ShapeEq (l.foldl f img) img := by
  induction l generalizing img with
  | nil => exact shapeEq_refl _
  | cons a rest ih => exact shapeEq_trans (ih (f img a)) (hf img a)

theorem fill_shapeEq (img : Image) (c : Color) : ShapeEq (img.fill c) img :=
  ⟨rfl, rfl, rfl, foldl_fillPixel_length _ _ _ _ _⟩

theorem vignette_shapeEq (rf : RealFns) (img : Image) (bg : Color) :
    ShapeEq (generateVignette rf img bg) img := by
  unfold generateVignette
  apply foldl_shapeEq
  intro img' xy
  dsimp only
  split
  · exact shapeEq_refl _
  · exact set_shapeEq _ _ _ _

theorem foldl_inv {α β : Type} (f : β → α → β) (P : β → Prop)
    (hf : ∀ b a, P b → P (f b a)) (l : List α) (b : β) (hb : P b) : P (l.foldl f b) := by
  induction l generalizing b with
  | nil => exact hb
  | cons a rest ih => exact ih (f b a) (hf b a hb)

theorem compositeAt_dst_length (stride : Format) (i : Nat) (acc : List ℚ × List Nat)
    (sh : ShaderObj) : (compositeAt stride i acc sh).2.length = acc.2.length := by
  simp only [compositeAt]
  split
  · split
    · exact writeBytes_length _ _ _
    · exact writeBytes_length _ _ _
  · rfl

theorem composite_dst_length (stride : Format) (n : Nat) (passes : List ShaderObj)
    (zb : List ℚ) (dst : List Nat) :
    (composite stride n passes zb dst).2.length = dst.length := by
  unfold composite
  refine foldl_inv _ (fun (acc : List ℚ × List Nat) => acc.2.length = dst.length) ?_ _ _ rfl
  intro acc i hacc
  refine foldl_inv _ (fun (acc2 : List ℚ × List Nat) => acc2.2.length = dst.length) ?_ _ _ hacc
  intro acc2 sh hacc2
  rw [compositeAt_dst_length, hacc2]

theorem reset_shape (img : Image) (w h : Nat) (f : Format) :
    (img.reset w h f).width = w ∧ (img.reset w h f).height = h ∧
    (img.reset w h f).format = f ∧
    (img.reset w h f).data.length = w * h * f.toNat := by
  refine ⟨rfl, rfl, rfl, ?_⟩
  simp [Image.reset, Image.clear]

theorem reset_eq (img : Image) (w h : Nat) (f : Format) :
    img.reset w h f = ⟨w, h, f, List.replicate (w * h * f.toNat) 0⟩ := rfl

theorem copy_some_shape {dst src img : Image} (h : Image.copy dst src = some img) :
    img.width = dst.width ∧ img.height = dst.height ∧ img.format = dst.format ∧
    img.data.length = dst.data.length := by
  unfold Image.copy at h
  split at h
  · injection h with h'
    subst h'
    exact ⟨rfl, rfl, rfl, writeBytes_length _ _ _⟩
  · exact Option.noConfusion h

/-- C1: whenever `render` completes, the output image has the requested
format, the requested width and height (after the optional SSAA
downscale), and a byte buffer of exactly `width·height·channels` bytes,
where `channels` is the numeric value of the format enumerator. -/
theorem C1_render_shape (rf : RealFns) (ssort : List RenderOp → List RenderOp)
    (scene : Scene) (fb img : Image)
    (h : render rf ssort scene fb = some img) :
    img.format = scene.options.format ∧ img.width = scene.options.width ∧
    img.height = scene.options.height ∧
    img.data.length = img.width * img.height * img.format.toNat := by
  simp only [render] at h
  split at h
  · exact Option.noConfusion h
  · next passes hpasses =>
    split at h
    · next hssaa =>
      rw [reset_eq] at h
      obtain ⟨hw, hh, hf, hl⟩ := copy_some_shape h
      refine ⟨hf, hw, hh, ?_⟩
      rw [hl, hw, hh, hf]
      simp
    · next hssaa =>
      have hb : scene.options.ssaa = false := by
        revert hssaa
        cases scene.options.ssaa <;> simp
      injection h with h'
      have hshape : ShapeEq img
          { Image.reset fb (scene.options.width * (if scene.options.ssaa then scene.options.ssaaKernelSize else 1))
              (scene.options.height * (if scene.options.ssaa then scene.options.ssaaKernelSize else 1))
              scene.options.format with
            data := (composite scene.options.format
              ((scene.options.width * (if scene.options.ssaa then scene.options.ssaaKernelSize else 1)) *
               (scene.options.height * (if scene.options.ssaa then scene.options.ssaaKernelSize else 1)))
              passes
              (zbufferInit (scene.options.width * (if scene.options.ssaa then scene.options.ssaaKernelSize else 1))
                (scene.options.height * (if scene.options.ssaa then scene.options.ssaaKernelSize else 1)))
              (Image.reset fb (scene.options.width * (if scene.options.ssaa then scene.options.ssaaKernelSize else 1))
                (scene.options.height * (if scene.options.ssaa then scene.options.ssaaKernelSize else 1))
                scene.options.format).data).2 } := by
        rw [← h']
        split
        · exact vignette_shapeEq _ _ _
        · exact fill_shapeEq _ _
      rw [hb] at hshape
      simp only [Bool.false_eq_true, if_false, Nat.mul_one] at hshape
      obtain ⟨hw, hh, hf, hl⟩ := hshape
      rw [reset_eq] at hl
      refine ⟨hf, hw, hh, ?_⟩
      rw [hl, hw, hh, hf]
      rw [composite_dst_length]
      simp [reset_eq]

/-- At equal depths the compositor adopts nothing (used to evaluate the
C1 witness, where both z-buffers hold `floatMin`). -/
theorem compositeAt_fm (sh : ShaderObj) (h : sh.zbuffer = [floatMin]) :
    compositeAt Format.RGBA 0 ([floatMin], [0, 0, 0, 0]) sh = ([floatMin], [0, 0, 0, 0]) := by
  simp only [compositeAt, h, List.getD_cons_zero]
  rw [if_neg (lt_irrefl _)]

/-- C1 witness: rendering an empty scene at 1×1 RGBA completes and
produces the 1×1 RGBA image filled with the default white background;
the shape facts follow by the main theorem. -/
theorem C1_render_shape_witness :
    render ⟨id, id⟩ id { options := { width := 1, height := 1 } } ⟨0, 0, Format.RGBA, []⟩ =
      some ⟨1, 1, Format.RGBA, [255, 255, 255, 255]⟩ ∧
    ((⟨1, 1, Format.RGBA, [255, 255, 255, 255]⟩ : Image).format =
        ({ options := { width := 1, height := 1 } } : Scene).options.format ∧
      (⟨1, 1, Format.RGBA, [255, 255, 255, 255]⟩ : Image).width =
        ({ options := { width := 1, height := 1 } } : Scene).options.width ∧
      (⟨1, 1, Format.RGBA, [255, 255, 255, 255]⟩ : Image).height =
        ({ options := { width := 1, height := 1 } } : Scene).options.height ∧
      (⟨1, 1, Format.RGBA, [255, 255, 255, 255]⟩ : Image).data.length =
        (⟨1, 1, Format.RGBA, [255, 255, 255, 255]⟩ : Image).width *
        (⟨1, 1, Format.RGBA, [255, 255, 255, 255]⟩ : Image).height *
        (⟨1, 1, Format.RGBA, [255, 255, 255, 255]⟩ : Image).format.toNat) := by
  have hr : render ⟨id, id⟩ id { options := { width := 1, height := 1 } }
      ⟨0, 0, Format.RGBA, []⟩ = some ⟨1, 1, Format.RGBA, [255, 255, 255, 255]⟩ := by
    simp [render, runPass, initShaderObj, drawPass, queueList.eq_def, zbufferInit,
      composite, Image.reset, Image.clear, Image.fill, pixelList, fillPixel,
      writeBytes, Color.bytes, Format.toNat, compositeAt_fm, Image.mk', List.getD,
      List.mapM.loop, List.range_succ, List.range_zero, List.foldl_cons, List.foldl_nil]
  exact ⟨hr, C1_render_shape ⟨id, id⟩ id { options := { width := 1, height := 1 } }
    ⟨0, 0, Format.RGBA, []⟩ ⟨1, 1, Format.RGBA, [255, 255, 255, 255]⟩ hr⟩

end Raster
